import Mathlib

/-! shell/utils.go: conversions between host message objects and message records.

A shallow embedding of `src/shell/utils.go`.  The Go code talks to a JavaScript
host through the GopherJS `*js.Object` interface (`Get`, `Call`, `New`, `Index`,
`Length`, `String`, `Bool`, `Int`).  The host is not part of the repository, so
it is a parameter of the embedding (`Host`); every Go function is translated
over an arbitrary host.  Effects of the host (method calls, constructions, the
delivery of an asynchronous callback) are threaded through an explicit state,
and every effectful interaction is appended to a trace, so that statements such
as "no object is constructed" or "one text read is issued" can be made.

A synthetic host (`synth`) in the sense of the specification's test section is
provided to evaluate the code on concrete inputs.
-/

namespace Gu

/-! ## Values exchanged with the host -/

/-- Ways in which a Go call into the host fails to return: the host threw (a
Go panic), or the goroutine stays suspended on a channel receive forever. -/
inductive Fault where
  | thrown (msg : String)
  | blocked
  deriving DecidableEq, Repr

/-- A value behind a GopherJS `*js.Object`.  `null` is the Go `nil` pointer;
`num` is a JavaScript number with an integral value; `ref` is a reference to a
host object; `bytes` is a Go byte slice handed to the host and `func` a Go
function handed to the host as a callback. -/
inductive Val where
  | undefined
  | null
  | bool (b : Bool)
  | num (n : Int)
  | str (s : String)
  | bytes (b : List UInt8)
  | func
  | ref (id : Nat)
  deriving DecidableEq, Repr

/-- An argument of a host call: a value, or a Go `map[string]interface{}`
literal handed over as an option bag (fields in the order of the literal). -/
inductive Arg where
  | val (v : Val)
  | bag (fields : List (String × Val))
  deriving DecidableEq, Repr

/-- The string form of a JavaScript number with the integral value `n`: the
decimal digits below 10^21, and from there on the exponent form, one digit
before the point and no trailing zeros (`1e+21`). -/
def jsNumberString (n : Int) : String :=
  let sign := if n < 0 then "-" else ""
  if n.natAbs < 10 ^ 21 then sign ++ toString n.natAbs
  else
    let ds := (toString n.natAbs).data
    let mant := (ds.reverse.dropWhile (fun c => c.toNat = 48)).reverse
    let frac := if mant.tail.isEmpty then [] else Char.ofNat 46 :: mant.tail
    sign ++ String.mk (mant.head?.toList ++ frac) ++ "e+" ++ toString (ds.length - 1)

/-- GopherJS `(*js.Object).String()`, the JavaScript conversion `String(v)`.  Of
a byte slice handed to the host (a typed array) it is the decimal elements
joined by commas.  The string form of a function is its source text and that of
an object is what its `toString` method yields; neither is part of the model,
and the fixed texts given here for `func` and `ref` are those of a function and
of an object that do not define their own. -/
def Val.String : Val → String
  | .undefined => "undefined"
  | .null => "null"
  | .bool b => if b then "true" else "false"
  | .num n => jsNumberString n
  | .str s => s
  | .bytes b => String.intercalate "," (b.map (fun x => toString x.toNat))
  | .func => "function () \x7b [native code] \x7d"
  | .ref _ => "[object Object]"

/-- GopherJS `(*js.Object).Bool()`: JavaScript truthiness. -/
def Val.Bool : Val → Bool
  | .undefined => false
  | .null => false
  | .bool b => b
  | .num n => n != 0
  | .str s => s != ""
  | .bytes _ => true
  | .func => true
  | .ref _ => true

/-- The conversion of a number to a 32-bit integer (JavaScript `n >> 0`). -/
def wrap32 (n : Int) : Int := (n + 2147483648) % 4294967296 - 2147483648

/-- Whether the character with code `c` is white space to `parseInt`. -/
def isJsSpace (c : Nat) : Bool :=
  c = 9 || c = 10 || c = 11 || c = 12 || c = 13 || c = 32 || c = 160 || c = 5760 ||
  (8192 ≤ c && c ≤ 8202) || c = 8232 || c = 8233 || c = 8239 || c = 8287 || c = 12288 ||
  c = 65279

/-- The value of the character with code `c` as a digit in the radix. -/
def jsDigit (radix : Nat) (c : Nat) : Option Nat :=
  let v : Option Nat :=
    if 48 ≤ c ∧ c ≤ 57 then some (c - 48)
    else if 97 ≤ c ∧ c ≤ 122 then some (c - 87)
    else if 65 ≤ c ∧ c ≤ 90 then some (c - 55)
    else none
  v.filter (fun d => d < radix)

/-- The value of the longest prefix of digits, most significant digit first, on
top of the value `acc` of the digits read so far. -/
def jsDigits (radix : Nat) : List Char → Nat → Nat
  | [], acc => acc
  | c :: rest, acc =>
      match jsDigit radix c.toNat with
      | some d => jsDigits radix rest (acc * radix + d)
      | none => acc

/-- JavaScript `parseInt(s)` without a radix: leading white space is skipped, a
sign and a prefix `0x` are read, then the longest prefix of digits; where
JavaScript yields NaN (no digit) the value here is 0, which is what the 32-bit
conversion makes of NaN.  The digits are read exactly, as JavaScript reads
them up to 2^53; a longer run of digits JavaScript rounds to a number it can
represent. -/
def jsParseInt (s : String) : Int :=
  let cs := s.data.dropWhile (fun c => isJsSpace c.toNat)
  let neg := cs.head?.map Char.toNat = some 45
  let cs := if cs.head?.map Char.toNat = some 45 ∨ cs.head?.map Char.toNat = some 43
    then cs.tail else cs
  let hex := (cs.take 2).map Char.toNat = [48, 120] ∨ (cs.take 2).map Char.toNat = [48, 88]
  let v : Nat := if hex then jsDigits 16 (cs.drop 2) 0 else jsDigits 10 cs 0
  if neg then -(v : Int) else (v : Int)

/-- GopherJS `(*js.Object).Int()`, which is `parseInt(v) >> 0`: the integer at
the front of the string form of the value, wrapped to 32 bits.  For a number
below 10^21 that is the number itself, wrapped; from 10^21 on the string form
is the exponent form and `parseInt` reads its first digit. -/
def Val.Int : Val → Int
  | .num n =>
      if n.natAbs < 10 ^ 21 then wrap32 n
      else
        let d := Int.ofNat (n.natAbs / 10 ^ ((toString n.natAbs).length - 1))
        if n < 0 then -d else d
  | .str s => wrap32 (jsParseInt s)
  | .bytes b => (b.head?.map (fun x => Int.ofNat x.toNat)).getD 0
  | _ => 0

/-- The Go conversion `[]byte(s)`: the UTF-8 encoding of the string. -/
def goBytes (s : String) : List UInt8 :=
  s.data.flatMap String.utf8EncodeChar

/-! ## Go maps -/

/-- A Go `map[string]string`, kept as an association list.  The Go map
operations below keep the keys distinct. -/
abbrev GoMap := List (String × String)

/-- The Go map read `m[k]` with presence flag. -/
def GoMap.get? (m : GoMap) (k : String) : Option String :=
  (m.find? (fun e => e.1 == k)).map Prod.snd

/-- The Go map write `m[k] = v`: overwrite the entry of `k`, or add one. -/
def GoMap.set : GoMap → String → String → GoMap
  | [], k, v => [(k, v)]
  | (k0, v0) :: rest, k, v =>
      if k0 = k then (k, v) :: rest else (k0, v0) :: GoMap.set rest k v

/-- The order in which a Go `range` over a map visits the entries: chosen by the
runtime, some rearrangement of the entries. -/
structure GoRuntime where
  rangeOrder : GoMap → GoMap
  rangeOrder_perm : ∀ m, (rangeOrder m).Perm m

/-! ## The host -/

/-- One effectful interaction with the host. -/
inductive Event where
  | call (target : Val) (name : String) (args : List Arg)
  | construct (ctor : Val) (args : List Arg) (res : Nat)
  | arrayBuffer (bytes : List UInt8) (res : Nat)
  | recv (bd : String)
  deriving DecidableEq, Repr

/-- The JavaScript host as seen through GopherJS, over a host state `σ`.
Property reads (`get`, `index`, `length`) observe the state; `call`, `new` and
`newArrayBuffer` may change it.  `new` yields a reference to an object, as a
JavaScript `new` expression does.  `resume` runs the host's event loop until it
invokes the Go callback registered through `then`, and yields the string the
callback is invoked with; `none` when the callback is never invoked. -/
structure Host (σ : Type) where
  global : Val
  get : σ → Val → String → Except Fault Val
  index : σ → Val → Nat → Except Fault Val
  length : σ → Val → Except Fault Int
  call : σ → Val → String → List Arg → Except Fault (Val × σ)
  new : σ → Val → List Arg → Except Fault (Nat × σ)
  newArrayBuffer : σ → List UInt8 → Nat × σ
  resume : σ → Option (String × σ)

/-- Host state together with the trace of effectful interactions so far. -/
structure World (σ : Type) where
  host : σ
  trace : List Event

/-- A Go computation that talks to the host. -/
abbrev JS (σ : Type) (α : Type) := World σ → Except Fault (α × World σ)

/-- Sequencing: a fault ends the computation. -/
def JS.bind {σ α β : Type} (x : JS σ α) (f : α → JS σ β) : JS σ β := fun w =>
  match x w with
  | .error e => .error e
  | .ok (a, w1) => f a w1

/-- A computation that returns without touching the host. -/
def JS.pure {σ α : Type} (a : α) : JS σ α := fun w => .ok (a, w)

instance {σ : Type} : Monad (JS σ) where
  pure := JS.pure
  bind := JS.bind

variable {σ : Type}

/-- Go `o.Get(key)`. -/
def jsGet (H : Host σ) (o : Val) (key : String) : JS σ Val := fun w =>
  match H.get w.host o key with
  | .error e => .error e
  | .ok v => .ok (v, w)

/-- Go `o.Index(i)`. -/
def jsIndex (H : Host σ) (o : Val) (i : Nat) : JS σ Val := fun w =>
  match H.index w.host o i with
  | .error e => .error e
  | .ok v => .ok (v, w)

/-- Go `o.Length()`. -/
def jsLength (H : Host σ) (o : Val) : JS σ Int := fun w =>
  match H.length w.host o with
  | .error e => .error e
  | .ok n => .ok (n, w)

/-- Go `o.Call(name, args...)`. -/
def jsCall (H : Host σ) (o : Val) (name : String) (args : List Arg) : JS σ Val := fun w =>
  match H.call w.host o name args with
  | .error e => .error e
  | .ok (v, h) => .ok (v, ⟨h, w.trace ++ [Event.call o name args]⟩)

/-- Go `c.New(args...)`. -/
def jsNew (H : Host σ) (c : Val) (args : List Arg) : JS σ Val := fun w =>
  match H.new w.host c args with
  | .error e => .error e
  | .ok (r, h) => .ok (Val.ref r, ⟨h, w.trace ++ [Event.construct c args r]⟩)

/-- Go `js.NewArrayBuffer(b)`. -/
def jsNewArrayBuffer (H : Host σ) (b : List UInt8) : JS σ Val := fun w =>
  match H.newArrayBuffer w.host b with
  | (r, h) => .ok (Val.ref r, ⟨h, w.trace ++ [Event.arrayBuffer b r]⟩)

/-- Go `<-body`, for the channel fed by the callback handed to `then`: the
goroutine is suspended until the host invokes the callback. -/
def jsRecv (H : Host σ) : JS σ String := fun w =>
  match H.resume w.host with
  | none => .error Fault.blocked
  | some (bd, h) => .ok (bd, ⟨h, w.trace ++ [Event.recv bd]⟩)

/-! ## Message records -/

/-- Modelled from the spec: the declaration of `WebRequest` is not among the
sources; the fields are those of the data model (section 3) and of the
composite literal in `ObjectToWebRequest`.  `Cache` is a `CacheStrategy`, a
string type. -/
structure WebRequest where
  Body : List UInt8
  URL : String
  Method : String
  Mode : String
  Cache : String
  Credentials : String
  ReferrerPolicy : String
  Referrer : String
  Headers : GoMap
  BodyUsed : Bool
  Underline : Val
  deriving DecidableEq, Repr

/-- Modelled from the spec: the declaration of `WebResponse` is not among the
sources; the fields are those of the data model (section 3) and of the
composite literal in `ObjectToWebResponse` (`Type_` is the Go field `Type`). -/
structure WebResponse where
  Body : List UInt8
  Ok : Bool
  Status : Int
  StatusText : String
  Type_ : String
  Redirected : Bool
  FinalURL : String
  Headers : GoMap
  Underline : Val
  deriving DecidableEq, Repr

/-! ## Outbound conversion -/

/-- The body of the `range` loop of `MapToHeaders`, over the entries in the
order the runtime visits them. -/
def MapToHeaders.loop (H : Host σ) (header : Val) : List (String × String) → JS σ Unit
  | [] => pure ()
  | (name, val) :: rest => do
      let _ ← jsCall H header "set" [.val (.str name), .val (.str val)]
      MapToHeaders.loop H header rest

/-- `MapToHeaders` of shell/utils.go. -/
def MapToHeaders (H : Host σ) (G : GoRuntime) (res : GoMap) : JS σ Val := do
  let ctor ← jsGet H H.global "Headers"
  let header ← jsNew H ctor []
  MapToHeaders.loop H header (G.rangeOrder res)
  pure header

/-- `WebResponseToJSResponse` of shell/utils.go.  The record is passed by
pointer in Go; the record after the call is returned next to the result. -/
def WebResponseToJSResponse (H : Host σ) (G : GoRuntime) (res : WebResponse) :
    JS σ (Val × WebResponse) :=
  if res.Underline ≠ Val.null then
    pure (res.Underline, res)
  else do
    let body ← jsNewArrayBuffer H res.Body
    let blobCtor ← jsGet H H.global "Blob"
    let bodyBlob ← jsNew H blobCtor [.val body]
    let respCtor ← jsGet H H.global "Response"
    let headers ← MapToHeaders H G res.Headers
    let u ← jsNew H respCtor [.val bodyBlob,
      .bag [("status", .num res.Status),
            ("statusText", .str res.StatusText),
            ("headers", headers)]]
    pure (u, { res with Underline := u })

/-- `WebRequestToJSRequest` of shell/utils.go.  The record is passed by pointer
in Go; the record after the call is returned next to the result. -/
def WebRequestToJSRequest (H : Host σ) (G : GoRuntime) (res : WebRequest) :
    JS σ (Val × WebRequest) :=
  if res.Underline ≠ Val.null then
    pure (res.Underline, res)
  else do
    let reqCtor ← jsGet H H.global "Request"
    let headers ← MapToHeaders H G res.Headers
    let u ← jsNew H reqCtor [.val (.str res.URL),
      .bag [("body", .bytes res.Body),
            ("mode", .str res.Mode),
            ("cache", .str res.Cache),
            ("method", .str res.Method),
            ("referrer", .str res.Referrer),
            ("credentials", .str res.Credentials),
            ("referrerPolicy", .str res.ReferrerPolicy),
            ("headers", headers)]]
    pure (u, { res with Underline := u })

/-! ## Collection converters

The Go loops `for i := 0; i < o.Length(); i++` read `o.Length()` before every
iteration.  The loop bodies only read the host (`Index`, `Get`, `String`), and
reads do not change the host state, so every evaluation of `o.Length()` in a
loop gives the value of the first one; the translation reads it once. -/

/-- The loop body of `ObjectToMap`, over the indices `i` in turn. -/
def ObjectToMap.loop (H : Host σ) (o : Val) : List Nat → GoMap → JS σ GoMap
  | [], res => pure res
  | i :: rest, res => do
      let item ← jsIndex H o i
      let itemName := item.String
      let v ← jsGet H o itemName
      ObjectToMap.loop H o rest (GoMap.set res itemName v.String)

/-- `ObjectToMap` of shell/utils.go. -/
def ObjectToMap (H : Host σ) (o : Val) : JS σ GoMap := do
  let n ← jsLength H o
  ObjectToMap.loop H o (List.range n.toNat) []

/-- The loop body of `ObjectToStringList`, over the indices `i` in turn. -/
def ObjectToStringList.loop (H : Host σ) (o : Val) : List Nat → List String → JS σ (List String)
  | [], res => pure res
  | i :: rest, res => do
      let item ← jsIndex H o i
      ObjectToStringList.loop H o rest (res ++ [item.String])

/-- `ObjectToStringList` of shell/utils.go. -/
def ObjectToStringList (H : Host σ) (o : Val) : JS σ (List String) := do
  let n ← jsLength H o
  ObjectToStringList.loop H o (List.range n.toNat) []

/-- The loop body of `ObjectToList`, over the indices `i` in turn. -/
def ObjectToList.loop (H : Host σ) (o : Val) : List Nat → List Val → JS σ (List Val)
  | [], res => pure res
  | i :: rest, res => do
      let item ← jsIndex H o i
      ObjectToList.loop H o rest (res ++ [item])

/-- `ObjectToList` of shell/utils.go. -/
def ObjectToList (H : Host σ) (o : Val) : JS σ (List Val) := do
  let n ← jsLength H o
  ObjectToList.loop H o (List.range n.toNat) []

/-! ## Inbound conversion

The operands of the composite literals are evaluated in the order they are
written (Go orders method calls and channel receives lexically), the receive
`<-body` first. -/

/-- `ObjectToWebRequest` of shell/utils.go. -/
def ObjectToWebRequest (H : Host σ) (o : Val) : JS σ WebRequest := do
  let reqClone ← jsCall H o "clone" []
  let promise ← jsCall H o "text" []
  let _ ← jsCall H promise "then" [.val .func]
  let bd ← jsRecv H
  let url ← jsGet H o "url"
  let mode ← jsCall H o "mode" []
  let cache ← jsCall H o "cache" []
  let bodyUsed ← jsGet H o "bodyUsed"
  let method ← jsGet H o "method"
  let referrer ← jsCall H o "referrer" []
  let hdrs ← jsGet H o "headers"
  let headers ← ObjectToMap H hdrs
  let credentials ← jsCall H o "credentials" []
  let referrerPolicy ← jsCall H o "referrerPolicy" []
  pure {
    Body := goBytes bd
    Underline := reqClone
    URL := url.String
    Mode := mode.String
    Cache := cache.String
    BodyUsed := bodyUsed.Bool
    Method := method.String
    Referrer := referrer.String
    Headers := headers
    Credentials := credentials.String
    ReferrerPolicy := referrerPolicy.String }

/-- `ObjectToWebResponse` of shell/utils.go. -/
def ObjectToWebResponse (H : Host σ) (o : Val) : JS σ WebResponse := do
  let resClone ← jsCall H o "clone" []
  let promise ← jsCall H o "text" []
  let _ ← jsCall H promise "then" [.val .func]
  let bd ← jsRecv H
  let ok ← jsGet H o "ok"
  let status ← jsGet H o "status"
  let type ← jsGet H o "type"
  let redirected ← jsGet H o "redirected"
  let finalURL ← jsGet H o "useFinalURL"
  let statusText ← jsGet H o "statusText"
  let hdrs ← jsGet H o "headers"
  let headers ← ObjectToMap H hdrs
  pure {
    Body := goBytes bd
    Underline := resClone
    Ok := ok.Bool
    Status := status.Int
    Type_ := type.String
    Redirected := redirected.Bool
    FinalURL := finalURL.String
    StatusText := statusText.String
    Headers := headers }

/-! ## Batch conversion -/

/-- The `range` loop of `AllObjectToWebResponse`. -/
def AllObjectToWebResponse.loop (H : Host σ) :
    List Val → List WebResponse → JS σ (List WebResponse)
  | [], res => pure res
  | ro :: rest, res => do
      let r ← ObjectToWebResponse H ro
      AllObjectToWebResponse.loop H rest (res ++ [r])

/-- `AllObjectToWebResponse` of shell/utils.go. -/
def AllObjectToWebResponse (H : Host σ) (o : List Val) : JS σ (List WebResponse) :=
  AllObjectToWebResponse.loop H o []

/-- The `range` loop of `AllObjectToWebRequest`. -/
def AllObjectToWebRequest.loop (H : Host σ) :
    List Val → List WebRequest → JS σ (List WebRequest)
  | [], res => pure res
  | ro :: rest, res => do
      let r ← ObjectToWebRequest H ro
      AllObjectToWebRequest.loop H rest (res ++ [r])

/-- `AllObjectToWebRequest` of shell/utils.go. -/
def AllObjectToWebRequest (H : Host σ) (o : List Val) : JS σ (List WebRequest) :=
  AllObjectToWebRequest.loop H o []

/-! ## A synthetic host

The specification's test section exercises the conversions on synthetic host
objects: collections with a length, indexed names and a lookup by name, message
objects whose body can be read once, an asynchronous text source.  `synth` is
such a host.  Its header collections, its `Blob` constructor and its message
objects behave as those of the Fetch and File API standards do: a header
collection has no length and no indexed names and its `set` compares names
without regard to case, and a blob is built from a sequence of parts.
Reference 0 is the global object, references 1 to 4 are the constructors
`Headers`, `Blob`, `Response` and `Request`, and reference `5 + i` is the
`i`-th object of the heap. -/

/-- A synthetic request object.  `asMethods` tells whether `mode`, `cache`,
`referrer`, `credentials` and `referrerPolicy` are exposed as methods (a double
shaped after the calls of `ObjectToWebRequest`) or as properties (the platform's
request object). -/
structure ReqObj where
  url : String
  method : String
  mode : String
  cache : String
  credentials : String
  referrer : String
  referrerPolicy : String
  asMethods : Bool
  body : List UInt8
  bodyUsed : Bool
  headers : Nat
  deriving DecidableEq, Repr

/-- A synthetic response object. -/
structure RespObj where
  ok : Bool
  status : Int
  statusText : String
  type : String
  redirected : Bool
  useFinalURL : String
  body : List UInt8
  bodyUsed : Bool
  headers : Nat
  deriving DecidableEq, Repr

/-- The objects of the synthetic host. -/
inductive Obj where
  | headers (entries : GoMap)
  | buffer (bytes : List UInt8)
  | blob (bytes : List UInt8)
  | request (r : ReqObj)
  | response (r : RespObj)
  | promise (settled : Option String)
  | collection (items : List Val) (named : List (String × Val))
  deriving DecidableEq, Repr

/-- State of the synthetic host: the heap, and the strings queued for delivery
to the Go callback registered through `then`. -/
structure Synth where
  heap : List Obj
  jobs : List String
  deriving DecidableEq, Repr

/-- The object behind a reference. -/
def Synth.obj? (h : Synth) (id : Nat) : Option Obj :=
  if id < 5 then none else h.heap[id - 5]?

/-- Allocation of a new object, at the end of the heap. -/
def Synth.alloc (h : Synth) (o : Obj) : Nat × Synth :=
  (h.heap.length + 5, { h with heap := h.heap ++ [o] })

/-- Replacement of the object behind a reference. -/
def Synth.put (h : Synth) (id : Nat) (o : Obj) : Synth :=
  { h with heap := h.heap.set (id - 5) o }

/-- Lookup in a list of named values; `undefined` when the name is absent. -/
def lookupProp (ps : List (String × Val)) (k : String) : Val :=
  ((ps.find? (fun e => e.1 == k)).map Prod.snd).getD Val.undefined

/-- The value of a property that the object exposes as a method. -/
def methodOr (asMethods : Bool) (v : Val) : Val :=
  if asMethods then Val.func else v

/-- The properties of a synthetic request object. -/
def ReqObj.props (r : ReqObj) : List (String × Val) :=
  [("url", .str r.url), ("method", .str r.method),
   ("mode", methodOr r.asMethods (.str r.mode)),
   ("cache", methodOr r.asMethods (.str r.cache)),
   ("credentials", methodOr r.asMethods (.str r.credentials)),
   ("referrer", methodOr r.asMethods (.str r.referrer)),
   ("referrerPolicy", methodOr r.asMethods (.str r.referrerPolicy)),
   ("bodyUsed", .bool r.bodyUsed), ("headers", .ref r.headers)]

/-- The methods of a synthetic request object that return a string. -/
def ReqObj.methods (r : ReqObj) : List (String × Val) :=
  if r.asMethods then
    [("mode", .str r.mode), ("cache", .str r.cache), ("credentials", .str r.credentials),
     ("referrer", .str r.referrer), ("referrerPolicy", .str r.referrerPolicy)]
  else []

/-- The properties of a synthetic response object. -/
def RespObj.props (r : RespObj) : List (String × Val) :=
  [("ok", .bool r.ok), ("status", .num r.status), ("statusText", .str r.statusText),
   ("type", .str r.type), ("redirected", .bool r.redirected),
   ("useFinalURL", .str r.useFinalURL), ("bodyUsed", .bool r.bodyUsed),
   ("headers", .ref r.headers)]

/-- The methods of the platform's header collection. -/
def headersMethods : List String :=
  ["append", "delete", "entries", "forEach", "get", "getSetCookie", "has", "keys", "set",
   "values"]

/-- Property read on the synthetic host.  A header collection has no property
for a header name: its entries are reached through its methods only. -/
def synthGet (h : Synth) (o : Val) (key : String) : Except Fault Val :=
  match o with
  | .undefined => .error (.thrown "TypeError: cannot read a property of undefined")
  | .null => .error (.thrown "TypeError: cannot read a property of null")
  | .ref id =>
      if id = 0 then
        .ok (lookupProp [("Headers", .ref 1), ("Blob", .ref 2), ("Response", .ref 3),
                         ("Request", .ref 4)] key)
      else match h.obj? id with
        | some (.headers _) =>
            .ok (if key ∈ headersMethods then Val.func else Val.undefined)
        | some (.request r) => .ok (lookupProp r.props key)
        | some (.response r) => .ok (lookupProp r.props key)
        | some (.collection _ named) => .ok (lookupProp named key)
        | _ => .ok .undefined
  | _ => .ok .undefined

/-- Indexed read on the synthetic host.  Only a collection has indexed
elements; a header collection has none. -/
def synthIndex (h : Synth) (o : Val) (i : Nat) : Except Fault Val :=
  match o with
  | .undefined => .error (.thrown "TypeError: cannot read a property of undefined")
  | .null => .error (.thrown "TypeError: cannot read a property of null")
  | .ref id =>
      match h.obj? id with
      | some (.collection items _) => .ok ((items[i]?).getD .undefined)
      | _ => .ok .undefined
  | _ => .ok .undefined

/-- Length read on the synthetic host, Go `o.Length()`.  Only a collection has
a `length`; of any other object, a header collection included, `length` is
undefined and the Go loops over it run no iteration, which is length 0 here. -/
def synthLength (h : Synth) (o : Val) : Except Fault Int :=
  match o with
  | .undefined => .error (.thrown "TypeError: cannot read a property of undefined")
  | .null => .error (.thrown "TypeError: cannot read a property of null")
  | .ref id =>
      match h.obj? id with
      | some (.collection items _) => .ok items.length
      | _ => .ok 0
  | _ => .ok 0

/-- The fault of calling something that is not a function. -/
def notAFunction : Fault := .thrown "TypeError: not a function"

/-- Whether the character with code `c` may occur in a header name: a letter, a
digit, or one of the marks of an HTTP token. -/
def isTokenChar (c : Nat) : Bool :=
  (48 ≤ c && c ≤ 57) || (65 ≤ c && c ≤ 90) || (97 ≤ c && c ≤ 122) ||
  c ∈ [33, 35, 36, 37, 38, 39, 42, 43, 45, 46, 94, 95, 96, 124, 126]

/-- Whether the string is a header name: a token, not empty. -/
def validHeaderName (n : String) : Bool :=
  !n.data.isEmpty && n.data.all (fun c => isTokenChar c.toNat)

/-- Whether the character with code `c` is HTTP white space. -/
def isHttpSpace (c : Nat) : Bool := c = 9 || c = 10 || c = 13 || c = 32

/-- A header value without its leading and trailing HTTP white space. -/
def normaliseHeaderValue (v : String) : String :=
  String.mk (((v.data.dropWhile (fun c => isHttpSpace c.toNat)).reverse.dropWhile
    (fun c => isHttpSpace c.toNat)).reverse)

/-- Whether the normalised string is a header value: bytes only, none of them
NUL, line feed or carriage return. -/
def validHeaderValue (v : String) : Bool :=
  v.data.all (fun c => c.toNat < 256 && c.toNat != 0 && c.toNat != 10 && c.toNat != 13)

/-- A header name in lower case, the form in which the platform compares names
and reports them. -/
def lowerHeaderName (n : String) : String :=
  String.mk (n.data.map (fun c =>
    if 65 ≤ c.toNat ∧ c.toNat ≤ 90 then Char.ofNat (c.toNat + 32) else c))

/-- The platform's `set(name, value)` on the entries of a header collection:
the value is normalised, an invalid name or value throws, and the entry of the
name, compared without regard to case, is overwritten or added. -/
def headersSet (es : GoMap) (n v : String) : Except Fault GoMap :=
  if validHeaderName n && validHeaderValue (normaliseHeaderValue v) then
    .ok (GoMap.set es (lowerHeaderName n) (normaliseHeaderValue v))
  else .error (.thrown "TypeError: invalid header name or value")

/-- Method call on the synthetic host.  `dec` is the host's text decoder.  The
`set` of a header collection is the platform's (`headersSet`).  A
message body can be read once: `text` marks the body used, a second `text`
yields a promise that is never fulfilled, and `clone` of a used body throws.  The
promise derived by `then` is not represented; the code discards it. -/
def synthCall (dec : List UInt8 → String) (h : Synth) (o : Val) (name : String)
    (args : List Arg) : Except Fault (Val × Synth) :=
  match o with
  | .ref id =>
      match h.obj? id with
      | some (.headers es) =>
          if name = "set" then
            match args with
            | [.val n, .val v] =>
                match headersSet es n.String v.String with
                | .ok es1 => .ok (.undefined, h.put id (.headers es1))
                | .error e => .error e
            | _ => .error (.thrown "TypeError: set expects a name and a value")
          else .error notAFunction
      | some (.request r) =>
          if name = "clone" then
            if r.bodyUsed then .error (.thrown "TypeError: body already used")
            else
              let (c, h1) := h.alloc (.request r)
              .ok (.ref c, h1)
          else if name = "text" then
            if r.bodyUsed then
              let (p, h1) := h.alloc (.promise none)
              .ok (.ref p, h1)
            else
              let (p, h1) := (h.put id (.request { r with bodyUsed := true })).alloc
                (.promise (some (dec r.body)))
              .ok (.ref p, h1)
          else match r.methods.find? (fun e => e.1 == name) with
            | some e => .ok (e.2, h)
            | none => .error notAFunction
      | some (.response r) =>
          if name = "clone" then
            if r.bodyUsed then .error (.thrown "TypeError: body already used")
            else
              let (c, h1) := h.alloc (.response r)
              .ok (.ref c, h1)
          else if name = "text" then
            if r.bodyUsed then
              let (p, h1) := h.alloc (.promise none)
              .ok (.ref p, h1)
            else
              let (p, h1) := (h.put id (.response { r with bodyUsed := true })).alloc
                (.promise (some (dec r.body)))
              .ok (.ref p, h1)
          else .error notAFunction
      | some (.promise settled) =>
          if name = "then" then
            match settled with
            | some s => .ok (.undefined, { h with jobs := h.jobs ++ [s] })
            | none => .ok (.undefined, h)
          else .error notAFunction
      | _ => .error notAFunction
  | _ => .error notAFunction

/-- A string option of an option bag, with its default. -/
def strOr (v : Val) (d : String) : String :=
  if v = Val.undefined then d else v.String

/-- The fault of handing the `Blob` constructor something that is not a
sequence of parts. -/
def blobNotASequence : Fault :=
  .thrown "TypeError: Failed to construct Blob: the value cannot be converted to a sequence"

/-- The bytes of one part of a blob: those of an array buffer, of a blob or of
a typed array, and for any other value the encoding of its string form. -/
def blobPart (h : Synth) (part : Val) : List UInt8 :=
  match part with
  | .ref b =>
      match h.obj? b with
      | some (.buffer bs) => bs
      | some (.blob bs) => bs
      | _ => goBytes part.String
  | .bytes bs => bs
  | _ => goBytes part.String

/-- The bytes of the blob made of the sequence of parts `x`: a collection, or a
typed array, whose elements are numbers; nothing when `x` is undefined.  Any
other value, an array buffer included, is no sequence. -/
def blobOfSequence (h : Synth) (x : Val) : Except Fault (List UInt8) :=
  match x with
  | .undefined => .ok []
  | .bytes bs => .ok (bs.flatMap (fun b => goBytes (toString b.toNat)))
  | .ref b =>
      match h.obj? b with
      | some (.collection parts _) => .ok (parts.flatMap (blobPart h))
      | _ => .error blobNotASequence
  | _ => .error blobNotASequence

/-- Construction on the synthetic host.  A blob is built from a sequence of
parts, as on the platform: the constructor throws when handed anything else, an
array buffer itself included.  A response is built from a blob and the
options `status`, `statusText` and `headers`; its `ok` flag follows from the
status and it is not redirected.  A request is built from a URL and the options
of the bag, and exposes them as properties. -/
def synthNew (h : Synth) (ctor : Val) (args : List Arg) : Except Fault (Nat × Synth) :=
  if ctor = .ref 1 then
    match args with
    | [] => .ok (h.alloc (.headers []))
    | _ => .error (.thrown "TypeError: Headers expects no argument")
  else if ctor = .ref 2 then
    match args with
    | [] => .ok (h.alloc (.blob []))
    | .val x :: _ =>
        match blobOfSequence h x with
        | .ok bytes => .ok (h.alloc (.blob bytes))
        | .error e => .error e
    | _ => .error blobNotASequence
  else if ctor = .ref 3 then
    match args with
    | [.val (.ref b), .bag f] =>
        match h.obj? b, lookupProp f "headers" with
        | some (.blob bytes), .ref hd =>
            let status := if lookupProp f "status" = .undefined then 200
              else (lookupProp f "status").Int
            .ok (h.alloc (.response {
              ok := decide (200 ≤ status ∧ status ≤ 299)
              status := status
              statusText := strOr (lookupProp f "statusText") ""
              type := "default"
              redirected := false
              useFinalURL := ""
              body := bytes
              bodyUsed := false
              headers := hd }))
        | _, _ => .error (.thrown "TypeError: Response expects a blob and headers")
    | _ => .error (.thrown "TypeError: Response expects a body and options")
  else if ctor = .ref 4 then
    match args with
    | [.val (.str url), .bag f] =>
        match lookupProp f "body", lookupProp f "headers" with
        | .bytes b, .ref hd =>
            .ok (h.alloc (.request {
              url := url
              method := strOr (lookupProp f "method") "GET"
              mode := strOr (lookupProp f "mode") "cors"
              cache := strOr (lookupProp f "cache") "default"
              credentials := strOr (lookupProp f "credentials") "same-origin"
              referrer := strOr (lookupProp f "referrer") "about:client"
              referrerPolicy := strOr (lookupProp f "referrerPolicy") ""
              asMethods := false
              body := b
              bodyUsed := false
              headers := hd }))
        | _, _ => .error (.thrown "TypeError: Request expects a body and headers")
    | _ => .error (.thrown "TypeError: Request expects a URL and options")
  else .error (.thrown "TypeError: not a constructor")

/-- The synthetic host, with text decoder `dec`. -/
def synth (dec : List UInt8 → String) : Host Synth where
  global := .ref 0
  get := synthGet
  index := synthIndex
  length := synthLength
  call := synthCall dec
  new := synthNew
  newArrayBuffer := fun h b => h.alloc (.buffer b)
  resume := fun h =>
    match h.jobs with
    | [] => none
    | s :: rest => some (s, { h with jobs := rest })

/-- A text decoder for 7-bit text; any other byte decodes to the replacement
character. -/
def asciiText (b : List UInt8) : String :=
  String.mk (b.map (fun x => if x.toNat < 128 then Char.ofNat x.toNat else Char.ofNat 0xFFFD))

/-- The entries of the header collection behind a value of the synthetic host,
if it is one. -/
def synthHeaders (h : Synth) (o : Val) : Option GoMap :=
  match o with
  | .ref id =>
      match h.obj? id with
      | some (.headers es) => some es
      | _ => none
  | _ => none

/-- Construction on a page that has replaced the global `Blob` by a constructor
that takes an array buffer itself, the argument `WebResponseToJSResponse` hands
it; every other construction is that of the synthetic host.  No platform
behaves so: the variant serves to follow the outbound conversion of a response
past the construction of the blob. -/
def patchedNew (h : Synth) (ctor : Val) (args : List Arg) : Except Fault (Nat × Synth) :=
  match ctor, args with
  | .ref 2, [.val (.ref b)] =>
      match h.obj? b with
      | some (.buffer bytes) => .ok (h.alloc (.blob bytes))
      | _ => synthNew h ctor args
  | _, _ => synthNew h ctor args

/-- The synthetic host with the replaced `Blob` constructor (`patchedNew`). -/
def patched (dec : List UInt8 → String) : Host Synth :=
  { synth dec with new := patchedNew }

/-- A Go runtime that visits map entries in the order they are stored. -/
def goInOrder : GoRuntime where
  rangeOrder := fun m => m
  rangeOrder_perm := fun m => List.Perm.refl m

/-- A Go runtime that visits map entries in the reverse order. -/
def goReversed : GoRuntime where
  rangeOrder := fun m => m.reverse
  rangeOrder_perm := fun m => List.reverse_perm m

/-! ## Sample inputs -/

/-- The synthetic host with the 7-bit text decoder. -/
def host0 : Host Synth := synth asciiText

/-- The synthetic host with the replaced `Blob` constructor and the 7-bit text
decoder. -/
def hostPatched : Host Synth := patched asciiText

/-- An empty synthetic host with an empty trace. -/
def world0 : World Synth := ⟨⟨[], []⟩, []⟩

/-- A response record without platform object. -/
def sampleResponse : WebResponse where
  Body := goBytes "hello"
  Ok := true
  Status := 200
  StatusText := "OK"
  Type_ := "default"
  Redirected := false
  FinalURL := ""
  Headers := [("a", "1"), ("b", "2")]
  Underline := .null

/-- A request record without platform object. -/
def sampleRequest : WebRequest where
  Body := goBytes "hi"
  URL := "http://example.test/"
  Method := "POST"
  Mode := "cors"
  Cache := "no-store"
  Credentials := "omit"
  ReferrerPolicy := ""
  Referrer := ""
  Headers := [("a", "1")]
  BodyUsed := false
  Underline := .null

/-- A synthetic response object with the unread body "hello". -/
def sampleRespObj : RespObj where
  ok := true
  status := 200
  statusText := "OK"
  type := "basic"
  redirected := false
  useFinalURL := ""
  body := goBytes "hello"
  bodyUsed := false
  headers := 5

/-- A synthetic host holding a header collection (object 5) and a response
object with an unread body (object 6). -/
def worldResp : World Synth :=
  ⟨⟨[.headers [("a", "1")], .response sampleRespObj], []⟩, []⟩

/-- A request object with an unread body whose `mode`, `cache`, `referrer`,
`credentials` and `referrerPolicy` are methods or properties. -/
def reqObj (asMethods : Bool) : ReqObj where
  url := "http://example.test/"
  method := "POST"
  mode := "cors"
  cache := "no-store"
  credentials := "omit"
  referrer := "about:client"
  referrerPolicy := "no-referrer"
  asMethods := asMethods
  body := goBytes "hello"
  bodyUsed := false
  headers := 5

/-- A synthetic host holding a header collection (object 5) and a request
object (object 6) that exposes `mode` and the like as methods. -/
def worldReq : World Synth :=
  ⟨⟨[.headers [("a", "1")], .request (reqObj true)], []⟩, []⟩

/-- A synthetic host holding a header collection (object 5) and a request
object (object 6) that exposes `mode` and the like as properties, as the
platform does. -/
def worldReqProps : World Synth :=
  ⟨⟨[.headers [("a", "1")], .request (reqObj false)], []⟩, []⟩

/-- A synthetic host holding a collection (object 5) of length 3 with the names
a, b, c, which it maps to the values 1, 2, 3. -/
def worldColl : World Synth :=
  ⟨⟨[.collection [.str "a", .str "b", .str "c"]
       [("a", .str "1"), ("b", .str "2"), ("c", .str "3")]], []⟩, []⟩

/-- A synthetic host holding an empty collection (object 5). -/
def worldEmptyColl : World Synth := ⟨⟨[.collection [] []], []⟩, []⟩

/-- A synthetic response object with the given status and an empty body. -/
def respWithStatus (status : Int) : RespObj where
  ok := decide (200 ≤ status ∧ status ≤ 299)
  status := status
  statusText := ""
  type := "basic"
  redirected := false
  useFinalURL := ""
  body := []
  bodyUsed := false
  headers := 5

/-- A synthetic host holding a header collection (object 5) and three response
objects (6, 7, 8) with the status codes 200, 404 and 500. -/
def worldBatch : World Synth :=
  ⟨⟨[.headers [], .response (respWithStatus 200), .response (respWithStatus 404),
     .response (respWithStatus 500)], []⟩, []⟩

/-- A synthetic host holding a header collection (object 5) and two request
objects (6, 7) that expose `mode` and the like as methods. -/
def worldBatchReq : World Synth :=
  ⟨⟨[.headers [], .request (reqObj true),
     .request { reqObj true with url := "http://example.test/second" }], []⟩, []⟩

/-- The batch conversion in the specification's words: the inbound conversion
`conv` applied to the objects of the sequence one after the other, in input
order, each conversion starting where the previous one ended; the records in
the order of the objects. -/
def convertEach {α : Type} (conv : Val → JS σ α) : List Val → JS σ (List α)
  | [] => pure []
  | o :: rest => do
      let r ← conv o
      let rs ← convertEach conv rest
      pure (r :: rs)

/-! ## Evaluating the code on concrete inputs -/

instance exceptDecEq {ε α : Type} [DecidableEq ε] [DecidableEq α] : DecidableEq (Except ε α)
  | .ok a, .ok b =>
      if h : a = b then isTrue (by rw [h]) else isFalse (by intro e; cases e; exact h rfl)
  | .error a, .error b =>
      if h : a = b then isTrue (by rw [h]) else isFalse (by intro e; cases e; exact h rfl)
  | .ok _, .error _ => isFalse (by intro e; cases e)
  | .error _, .ok _ => isFalse (by intro e; cases e)

instance worldDecEq {σ : Type} [DecidableEq σ] : DecidableEq (World σ)
  | ⟨a, b⟩, ⟨c, d⟩ =>
      if h : a = c ∧ b = d then isTrue (by rw [h.1, h.2])
      else isFalse (by intro e; cases e; exact h ⟨rfl, rfl⟩)

/-- What a computation returned, or `d` if it faulted. -/
def returned {α : Type} (x : Except Fault α) (d : α) : α :=
  match x with
  | .ok a => a
  | .error _ => d

/-- What the batch conversion of the three sample responses returns. -/
def batchResponses : List WebResponse × World Synth :=
  returned (AllObjectToWebResponse host0 [.ref 6, .ref 7, .ref 8] worldBatch) ([], world0)

/-- What the batch conversion of the two sample requests returns. -/
def batchRequests : List WebRequest × World Synth :=
  returned (AllObjectToWebRequest host0 [.ref 6, .ref 7] worldBatchReq) ([], world0)

/-- A response record without platform object that says it was redirected. -/
def redirectedResponse : WebResponse := { sampleResponse with Redirected := true }

/-- A Go map with two names that differ in case only. -/
def mixedCaseHeaders : GoMap := [("A", "1"), ("a", "2")]

/-- A Go map whose names are header names in mixed case and whose second value
has white space around it. -/
def typedHeaders : GoMap := [("Content-Type", "text/plain"), ("X-Trace", " 7 ")]

/-- Whether an interaction is a `text` read. -/
def isTextRead : Event → Bool
  | .call _ name _ => name == "text"
  | _ => false

/-- Whether an interaction is a receive of the delivered body. -/
def isRecv : Event → Bool
  | .recv _ => true
  | _ => false

/-- The sample response record with other values in the fields `Ok`, `Type`,
`Redirected` and `FinalURL`. -/
def flaggedResponse : WebResponse :=
  { sampleResponse with
    Ok := false, Type_ := "error", Redirected := true, FinalURL := "http://example.test/final" }

/-! ## RandString

Go bytes are natural numbers below 256; a Go panic (a slice made with a
negative length, an index out of range) is a `Fault.thrown`. -/

/-- The constant `alphanum` of `RandString`. -/
def alphanum : String :=
  "0123456789ABCDEFGHIJKLMNOPQRSTUVWXYZabcdefghijklmnopqrstuvwxyz"

/-- Go `len(s)` for a string of 7-bit characters: one byte per character. -/
def goLen (s : String) : Nat := s.data.length

/-- Go `s[i]` for a string of 7-bit characters: the byte at index `i`; an index
out of range panics. -/
def goIndex (s : String) (i : Nat) : Except Fault Nat :=
  match s.data[i]? with
  | some c => .ok c.toNat
  | none => .error (.thrown "runtime error: index out of range")

/-- The Go conversion `string(b)` for a slice of bytes below 128: one character
per byte. -/
def goString (b : List Nat) : String := String.mk (b.map Char.ofNat)

/-- Go `rand.Read(buf)` of crypto/rand, whose result and error the code ignores:
the random source supplies the bytes `rnd`, which are written over the front of
the buffer; when the source supplies fewer bytes than the buffer holds (a
failed read), the rest of the buffer is left as it was. -/
def randRead (rnd : List Nat) (buf : List Nat) : List Nat :=
  (rnd.take buf.length).map (fun b => b % 256) ++ buf.drop rnd.length

/-- The `range` loop of `RandString`, over the indices in turn: `b` is the
element at index `i`, and `bytes[i]` is overwritten. -/
def RandString.loop : List Nat → List Nat → Except Fault (List Nat)
  | [], bytes => .ok bytes
  | i :: rest, bytes =>
      match bytes[i]? with
      | none => .error (.thrown "runtime error: index out of range")
      | some b =>
          match goIndex alphanum (b % (goLen alphanum % 256)) with
          | .error e => .error e
          | .ok c => RandString.loop rest (bytes.set i c)

/-- `RandString` of shell/utils.go, with the bytes `rnd` that the random source
supplies as a parameter. -/
def RandString (rnd : List Nat) (n : Int) : Except Fault String :=
  if n < 0 then .error (.thrown "runtime error: makeslice: len out of range")
  else
    let bytes := randRead rnd (List.replicate n.toNat 0)
    match RandString.loop (List.range bytes.length) bytes with
    | .error e => .error e
    | .ok out => .ok (goString out)

/-! Theorems -/

/-! ## Sequencing -/

@[simp] theorem js_bind_apply {α β : Type} (x : JS σ α) (f : α → JS σ β) (w : World σ) :
    (x >>= f) w = match x w with
      | .error e => .error e
      | .ok (a, w1) => f a w1 := rfl

@[simp] theorem js_pure_apply {α : Type} (a : α) (w : World σ) :
    (pure a : JS σ α) w = .ok (a, w) := rfl

theorem jsNew_ok {H : Host σ} {c : Val} {args : List Arg} {w w1 : World σ} {v : Val}
    (h : jsNew H c args w = .ok (v, w1)) :
    ∃ r h1, H.new w.host c args = .ok (r, h1) ∧ v = .ref r ∧
      w1 = ⟨h1, w.trace ++ [Event.construct c args r]⟩ := by
  unfold jsNew at h
  split at h
  · cases h
  · next r h1 heq =>
    cases h
    exact ⟨r, h1, heq, rfl, rfl⟩

/-! ## Outbound conversion of a record that has a platform object -/

theorem WebResponseToJSResponse_set (H : Host σ) (G : GoRuntime) (res : WebResponse)
    (w : World σ) (hu : res.Underline ≠ Val.null) :
    WebResponseToJSResponse H G res w = .ok ((res.Underline, res), w) := by
  simp [WebResponseToJSResponse, if_pos hu]

theorem WebRequestToJSRequest_set (H : Host σ) (G : GoRuntime) (res : WebRequest)
    (w : World σ) (hu : res.Underline ≠ Val.null) :
    WebRequestToJSRequest H G res w = .ok ((res.Underline, res), w) := by
  simp [WebRequestToJSRequest, if_pos hu]

theorem WebResponseToJSResponse_ok {H : Host σ} {G : GoRuntime} {res res1 : WebResponse}
    {w w1 : World σ} {u : Val}
    (h : WebResponseToJSResponse H G res w = .ok ((u, res1), w1)) :
    u ≠ Val.null ∧ res1 = { res with Underline := u } := by
  by_cases hu : res.Underline = Val.null
  · simp only [WebResponseToJSResponse, hu, ne_eq, not_true_eq_false, if_false,
      js_bind_apply, js_pure_apply] at h
    repeat' (split at h <;> try contradiction)
    next hnew =>
    obtain ⟨r, h1, -, hv, -⟩ := jsNew_ok hnew
    cases h
    subst hv
    exact ⟨by simp, rfl⟩
  · rw [WebResponseToJSResponse_set H G res w hu] at h
    cases h
    exact ⟨hu, rfl⟩

theorem WebRequestToJSRequest_ok {H : Host σ} {G : GoRuntime} {res res1 : WebRequest}
    {w w1 : World σ} {u : Val}
    (h : WebRequestToJSRequest H G res w = .ok ((u, res1), w1)) :
    u ≠ Val.null ∧ res1 = { res with Underline := u } := by
  by_cases hu : res.Underline = Val.null
  · simp only [WebRequestToJSRequest, hu, ne_eq, not_true_eq_false, if_false,
      js_bind_apply, js_pure_apply] at h
    repeat' (split at h <;> try contradiction)
    next hnew =>
    obtain ⟨r, h1, -, hv, -⟩ := jsNew_ok hnew
    cases h
    subst hv
    exact ⟨by simp, rfl⟩
  · rw [WebRequestToJSRequest_set H G res w hu] at h
    cases h
    exact ⟨hu, rfl⟩

/-- C1: outbound conversion is idempotent.  For a response record and for a
request record alike: when `Underline` is set, the conversion returns exactly
that reference and leaves the record, the host state and the trace of host
interactions unchanged (nothing is constructed); and whenever a conversion
returns reference `u` with record `res1`, converting `res1` again returns the
same `u`, the same record, and again changes nothing. -/
theorem outbound_twice_same_reference (H : Host σ) (G : GoRuntime) (w : World σ) :
    (∀ res : WebResponse,
      (res.Underline ≠ Val.null →
        WebResponseToJSResponse H G res w = .ok ((res.Underline, res), w)) ∧
      (∀ u res1 w1, WebResponseToJSResponse H G res w = .ok ((u, res1), w1) →
        WebResponseToJSResponse H G res1 w1 = .ok ((u, res1), w1))) ∧
    (∀ req : WebRequest,
      (req.Underline ≠ Val.null →
        WebRequestToJSRequest H G req w = .ok ((req.Underline, req), w)) ∧
      (∀ u req1 w1, WebRequestToJSRequest H G req w = .ok ((u, req1), w1) →
        WebRequestToJSRequest H G req1 w1 = .ok ((u, req1), w1))) := by
  refine ⟨fun res => ⟨WebResponseToJSResponse_set H G res w, ?_⟩,
    fun req => ⟨WebRequestToJSRequest_set H G req w, ?_⟩⟩
  · intro u res1 w1 h
    obtain ⟨hu, hres⟩ := WebResponseToJSResponse_ok h
    have hset : res1.Underline = u := by rw [hres]
    have := WebResponseToJSResponse_set H G res1 w1 (by rw [hset]; exact hu)
    rw [hset] at this
    exact this
  · intro u req1 w1 h
    obtain ⟨hu, hreq⟩ := WebRequestToJSRequest_ok h
    have hset : req1.Underline = u := by rw [hreq]
    have := WebRequestToJSRequest_set H G req1 w1 (by rw [hset]; exact hu)
    rw [hset] at this
    exact this

/-- Witness for C1 on the synthetic host: a record whose `Underline` is object
8 (response) or 6 (request) converts to that object on a host on which nothing
was constructed; the first conversion of the sample request constructs object
6 and the second returns it.  The first conversion of the sample response
returns only where the `Blob` constructor takes the array buffer it is handed:
on the host with the replaced constructor it constructs object 8, and the
second conversion returns it. -/
theorem outbound_twice_same_reference_witness :
    ({ sampleResponse with Underline := Val.ref 8 }.Underline ≠ Val.null ∧
      WebResponseToJSResponse host0 goInOrder { sampleResponse with Underline := .ref 8 } world0
        = .ok ((Val.ref 8, { sampleResponse with Underline := .ref 8 }), world0)) ∧
    ({ sampleRequest with Underline := Val.ref 6 }.Underline ≠ Val.null ∧
      WebRequestToJSRequest host0 goInOrder { sampleRequest with Underline := .ref 6 } world0
        = .ok ((Val.ref 6, { sampleRequest with Underline := .ref 6 }), world0)) ∧
    (∃ res1 w1,
      WebResponseToJSResponse hostPatched goInOrder sampleResponse world0
        = .ok ((Val.ref 8, res1), w1) ∧
      WebResponseToJSResponse hostPatched goInOrder res1 w1 = .ok ((Val.ref 8, res1), w1)) ∧
    (∃ req1 w1,
      WebRequestToJSRequest host0 goInOrder sampleRequest world0
        = .ok ((Val.ref 6, req1), w1) ∧
      WebRequestToJSRequest host0 goInOrder req1 w1 = .ok ((Val.ref 6, req1), w1)) :=
  ⟨⟨by decide,
      ((outbound_twice_same_reference host0 goInOrder world0).1
        { sampleResponse with Underline := .ref 8 }).1 (by decide)⟩,
   ⟨by decide,
      ((outbound_twice_same_reference host0 goInOrder world0).2
        { sampleRequest with Underline := .ref 6 }).1 (by decide)⟩,
   ⟨_, _, rfl,
      ((outbound_twice_same_reference hostPatched goInOrder world0).1 sampleResponse).2 _ _ _
        rfl⟩,
   ⟨_, _, rfl,
      ((outbound_twice_same_reference host0 goInOrder world0).2 sampleRequest).2 _ _ _ rfl⟩⟩

/-! ## Host primitives -/

theorem jsCall_ok {H : Host σ} {o : Val} {name : String} {args : List Arg} {w w1 : World σ}
    {v : Val} (h : jsCall H o name args w = .ok (v, w1)) :
    ∃ h1, H.call w.host o name args = .ok (v, h1) ∧
      w1 = ⟨h1, w.trace ++ [Event.call o name args]⟩ := by
  unfold jsCall at h
  split at h
  · cases h
  · next v1 h1 heq =>
    cases h
    exact ⟨h1, heq, rfl⟩

theorem jsGet_ok {H : Host σ} {o : Val} {key : String} {w w1 : World σ} {v : Val}
    (h : jsGet H o key w = .ok (v, w1)) : H.get w.host o key = .ok v ∧ w1 = w := by
  unfold jsGet at h
  split at h
  · cases h
  · next v1 heq =>
    cases h
    exact ⟨heq, rfl⟩

theorem jsIndex_ok {H : Host σ} {o : Val} {i : Nat} {w w1 : World σ} {v : Val}
    (h : jsIndex H o i w = .ok (v, w1)) : H.index w.host o i = .ok v ∧ w1 = w := by
  unfold jsIndex at h
  split at h
  · cases h
  · next v1 heq =>
    cases h
    exact ⟨heq, rfl⟩

theorem jsLength_ok {H : Host σ} {o : Val} {w w1 : World σ} {n : Int}
    (h : jsLength H o w = .ok (n, w1)) : H.length w.host o = .ok n ∧ w1 = w := by
  unfold jsLength at h
  split at h
  · cases h
  · next v1 heq =>
    cases h
    exact ⟨heq, rfl⟩

theorem jsRecv_ok {H : Host σ} {w w1 : World σ} {bd : String}
    (h : jsRecv H w = .ok (bd, w1)) :
    ∃ h1, H.resume w.host = some (bd, h1) ∧ w1 = ⟨h1, w.trace ++ [Event.recv bd]⟩ := by
  unfold jsRecv at h
  split at h
  · cases h
  · next b1 h1 heq =>
    cases h
    exact ⟨h1, heq, rfl⟩

/-! ## The collection converters only read the host -/

theorem ObjectToMap_loop_world {H : Host σ} {o : Val} (is : List Nat) :
    ∀ (acc : GoMap) (w w1 : World σ) (m : GoMap),
      ObjectToMap.loop H o is acc w = .ok (m, w1) → w1 = w := by
  induction is with
  | nil =>
    intro acc w w1 m h
    simp only [ObjectToMap.loop, js_pure_apply] at h
    cases h; rfl
  | cons i rest ih =>
    intro acc w w1 m h
    simp only [ObjectToMap.loop, js_bind_apply] at h
    split at h
    · cases h
    · next hi =>
      split at h
      · cases h
      · next hg =>
        have e1 := (jsIndex_ok hi).2
        have e2 := (jsGet_ok hg).2
        have := ih _ _ _ _ h
        rw [this, e2, e1]

theorem ObjectToMap_world {H : Host σ} {o : Val} {w w1 : World σ} {m : GoMap}
    (h : ObjectToMap H o w = .ok (m, w1)) : w1 = w := by
  simp only [ObjectToMap, js_bind_apply] at h
  split at h
  · cases h
  · next hl =>
    rw [ObjectToMap_loop_world _ _ _ _ _ h, (jsLength_ok hl).2]

/-! ## What a returning inbound conversion did -/

/-- A returning `ObjectToWebResponse` made the calls `clone`, `text` (both on
`o`) and `then`, received the delivered text, and read the properties in the
host state `h4` reached after the delivery. -/
theorem ObjectToWebResponse_run {H : Host σ} {o : Val} {w w1 : World σ} {rec : WebResponse}
    (h : ObjectToWebResponse H o w = .ok (rec, w1)) :
    ∃ h1 p h2 v h3 bd h4 hdrs,
      H.call w.host o "clone" [] = .ok (rec.Underline, h1) ∧
      H.call h1 o "text" [] = .ok (p, h2) ∧
      H.call h2 p "then" [.val .func] = .ok (v, h3) ∧
      H.resume h3 = some (bd, h4) ∧
      rec.Body = goBytes bd ∧
      (∃ x, H.get h4 o "ok" = .ok x ∧ rec.Ok = x.Bool) ∧
      (∃ x, H.get h4 o "status" = .ok x ∧ rec.Status = x.Int) ∧
      (∃ x, H.get h4 o "type" = .ok x ∧ rec.Type_ = x.String) ∧
      (∃ x, H.get h4 o "redirected" = .ok x ∧ rec.Redirected = x.Bool) ∧
      (∃ x, H.get h4 o "useFinalURL" = .ok x ∧ rec.FinalURL = x.String) ∧
      (∃ x, H.get h4 o "statusText" = .ok x ∧ rec.StatusText = x.String) ∧
      H.get h4 o "headers" = .ok hdrs ∧
      ObjectToMap H hdrs w1 = .ok (rec.Headers, w1) ∧
      w1 = ⟨h4, w.trace ++ [Event.call o "clone" [], Event.call o "text" [],
              Event.call p "then" [.val .func], Event.recv bd]⟩ := by
  simp only [ObjectToWebResponse, js_bind_apply, js_pure_apply] at h
  repeat' (split at h <;> try contradiction)
  next hclone _ _ _ htext _ _ _ hthen _ _ _ hrecv _ _ _ g1 _ _ _ g2 _ _ _ g3 _ _ _ g4
      _ _ _ g5 _ _ _ g6 _ _ _ g7 _ _ _ hmap =>
  obtain ⟨h1, hc1, rfl⟩ := jsCall_ok hclone
  obtain ⟨h2, hc2, rfl⟩ := jsCall_ok htext
  obtain ⟨h3, hc3, rfl⟩ := jsCall_ok hthen
  obtain ⟨h4, hc4, rfl⟩ := jsRecv_ok hrecv
  obtain ⟨e1, rfl⟩ := jsGet_ok g1
  obtain ⟨e2, rfl⟩ := jsGet_ok g2
  obtain ⟨e3, rfl⟩ := jsGet_ok g3
  obtain ⟨e4, rfl⟩ := jsGet_ok g4
  obtain ⟨e5, rfl⟩ := jsGet_ok g5
  obtain ⟨e6, rfl⟩ := jsGet_ok g6
  obtain ⟨e7, rfl⟩ := jsGet_ok g7
  have hw := ObjectToMap_world hmap
  subst hw
  cases h
  simp only [List.append_assoc, List.singleton_append] at hmap ⊢
  exact ⟨h1, _, h2, _, h3, _, h4, _, hc1, hc2, hc3, hc4, rfl, ⟨_, e1, rfl⟩, ⟨_, e2, rfl⟩,
    ⟨_, e3, rfl⟩, ⟨_, e4, rfl⟩, ⟨_, e5, rfl⟩, ⟨_, e6, rfl⟩, e7, hmap, rfl⟩

theorem ObjectToMap_loop_host {H : Host σ} {o : Val} (is : List Nat) :
    ∀ (acc : GoMap) (w : World σ) (t : List Event),
      ObjectToMap.loop H o is acc ⟨w.host, t⟩ =
        match ObjectToMap.loop H o is acc w with
        | .error e => .error e
        | .ok (m, _) => .ok (m, ⟨w.host, t⟩) := by
  induction is with
  | nil => intro acc w t; rfl
  | cons i rest ih =>
    intro acc w t
    simp only [ObjectToMap.loop, js_bind_apply, jsIndex, jsGet]
    cases H.index w.host o i with
    | error e => rfl
    | ok item =>
      simp only []
      cases H.get w.host o item.String with
      | error e => rfl
      | ok v =>
        simp only []
        exact ih _ w t

theorem ObjectToMap_host {H : Host σ} {o : Val} {w : World σ} {m : GoMap}
    (h : ObjectToMap H o w = .ok (m, w)) (t : List Event) :
    ObjectToMap H o ⟨w.host, t⟩ = .ok (m, ⟨w.host, t⟩) := by
  simp only [ObjectToMap, js_bind_apply, jsLength] at h ⊢
  cases hl : H.length w.host o with
  | error e => simp [hl] at h
  | ok n =>
    simp only [hl] at h ⊢
    rw [ObjectToMap_loop_host, h]
/-- A returning `ObjectToWebRequest` made the calls `clone`, `text` (both on
`o`) and `then`, received the delivered text, and then read `url`, `bodyUsed`,
`method` and `headers` as properties and invoked `mode`, `cache`, `referrer`,
`credentials` and `referrerPolicy` as methods, in the order of the literal. -/
theorem ObjectToWebRequest_run {H : Host σ} {o : Val} {w w1 : World σ} {rec : WebRequest}
    (h : ObjectToWebRequest H o w = .ok (rec, w1)) :
    ∃ h1 p h2 v h3 bd h4 h5 h6 h7 h8 h9 hdrs,
      H.call w.host o "clone" [] = .ok (rec.Underline, h1) ∧
      H.call h1 o "text" [] = .ok (p, h2) ∧
      H.call h2 p "then" [.val .func] = .ok (v, h3) ∧
      H.resume h3 = some (bd, h4) ∧
      rec.Body = goBytes bd ∧
      (∃ x, H.get h4 o "url" = .ok x ∧ rec.URL = x.String) ∧
      (∃ x, H.call h4 o "mode" [] = .ok (x, h5) ∧ rec.Mode = x.String) ∧
      (∃ x, H.call h5 o "cache" [] = .ok (x, h6) ∧ rec.Cache = x.String) ∧
      (∃ x, H.get h6 o "bodyUsed" = .ok x ∧ rec.BodyUsed = x.Bool) ∧
      (∃ x, H.get h6 o "method" = .ok x ∧ rec.Method = x.String) ∧
      (∃ x, H.call h6 o "referrer" [] = .ok (x, h7) ∧ rec.Referrer = x.String) ∧
      H.get h7 o "headers" = .ok hdrs ∧
      (∀ t, ObjectToMap H hdrs ⟨h7, t⟩ = .ok (rec.Headers, ⟨h7, t⟩)) ∧
      (∃ x, H.call h7 o "credentials" [] = .ok (x, h8) ∧ rec.Credentials = x.String) ∧
      (∃ x, H.call h8 o "referrerPolicy" [] = .ok (x, h9) ∧
        rec.ReferrerPolicy = x.String) ∧
      w1 = ⟨h9, w.trace ++ [Event.call o "clone" [], Event.call o "text" [],
              Event.call p "then" [.val .func], Event.recv bd,
              Event.call o "mode" [], Event.call o "cache" [], Event.call o "referrer" [],
              Event.call o "credentials" [], Event.call o "referrerPolicy" []]⟩ := by
  simp only [ObjectToWebRequest, js_bind_apply, js_pure_apply] at h
  repeat' (split at h <;> try contradiction)
  next hclone _ _ _ htext _ _ _ hthen _ _ _ hrecv _ _ _ g1 _ _ _ c2 _ _ _ c3 _ _ _ g4
      _ _ _ g5 _ _ _ c6 _ _ _ g7 _ _ _ hmap _ _ _ c8 _ _ _ c9 =>
  obtain ⟨h1, hc1, rfl⟩ := jsCall_ok hclone
  obtain ⟨h2, hc2, rfl⟩ := jsCall_ok htext
  obtain ⟨h3, hc3, rfl⟩ := jsCall_ok hthen
  obtain ⟨h4, hc4, rfl⟩ := jsRecv_ok hrecv
  obtain ⟨e1, rfl⟩ := jsGet_ok g1
  obtain ⟨h5, e2, rfl⟩ := jsCall_ok c2
  obtain ⟨h6, e3, rfl⟩ := jsCall_ok c3
  obtain ⟨e4, rfl⟩ := jsGet_ok g4
  obtain ⟨e5, rfl⟩ := jsGet_ok g5
  obtain ⟨h7, e6, rfl⟩ := jsCall_ok c6
  obtain ⟨e7, rfl⟩ := jsGet_ok g7
  have hw := ObjectToMap_world hmap
  subst hw
  obtain ⟨h8, e8, rfl⟩ := jsCall_ok c8
  obtain ⟨h9, e9, rfl⟩ := jsCall_ok c9
  cases h
  simp only [List.append_assoc, List.singleton_append, List.cons_append, List.nil_append]
  exact ⟨h1, _, h2, _, h3, _, h4, h5, h6, h7, h8, h9, _, hc1, hc2, hc3, hc4, rfl,
    ⟨_, e1, rfl⟩, ⟨_, e2, rfl⟩, ⟨_, e3, rfl⟩, ⟨_, e4, rfl⟩, ⟨_, e5, rfl⟩, ⟨_, e6, rfl⟩, e7,
    fun t => ObjectToMap_host hmap t, ⟨_, e8, rfl⟩, ⟨_, e9, rfl⟩, rfl⟩

/-! ## Go maps -/

theorem GoMap.keys_set (m : GoMap) (k v : String) :
    ∀ k1, k1 ∈ (GoMap.set m k v).map Prod.fst ↔ k1 = k ∨ k1 ∈ m.map Prod.fst := by
  induction m with
  | nil => intro k1; simp [GoMap.set]
  | cons e rest ih =>
    obtain ⟨k0, v0⟩ := e
    intro k1
    unfold GoMap.set
    split
    · next h => subst h; simp
    · next h =>
      simp only [List.map_cons, List.mem_cons, ih]
      tauto

theorem GoMap.nodup_set (m : GoMap) (k v : String) (hm : (m.map Prod.fst).Nodup) :
    ((GoMap.set m k v).map Prod.fst).Nodup := by
  induction m with
  | nil => simp [GoMap.set]
  | cons e rest ih =>
    obtain ⟨k0, v0⟩ := e
    simp only [List.map_cons, List.nodup_cons] at hm
    unfold GoMap.set
    split
    · next h => subst h; simpa using hm
    · next h =>
      simp only [List.map_cons, List.nodup_cons]
      refine ⟨?_, ih hm.2⟩
      rw [GoMap.keys_set]
      intro hc
      rcases hc with hc | hc
      · exact h hc
      · exact hm.1 hc

theorem GoMap.get?_cons_self (rest : GoMap) (k v : String) :
    GoMap.get? ((k, v) :: rest) k = some v := by
  simp [GoMap.get?, List.find?_cons]

theorem GoMap.get?_cons_ne (rest : GoMap) (k0 v0 k : String) (h : k0 ≠ k) :
    GoMap.get? ((k0, v0) :: rest) k = GoMap.get? rest k := by
  have hb : (k0 == k) = false := beq_eq_false_iff_ne.2 h
  simp [GoMap.get?, List.find?_cons, hb]

theorem GoMap.get?_set (m : GoMap) (k v k1 : String) :
    GoMap.get? (GoMap.set m k v) k1 = if k1 = k then some v else GoMap.get? m k1 := by
  induction m with
  | nil =>
    unfold GoMap.set
    by_cases h : k1 = k
    · subst h; rw [GoMap.get?_cons_self, if_pos rfl]
    · rw [GoMap.get?_cons_ne _ _ _ _ (fun e => h e.symm), if_neg h]
  | cons e rest ih =>
    obtain ⟨k0, v0⟩ := e
    unfold GoMap.set
    split
    · next h =>
      subst h
      by_cases h1 : k1 = k0
      · subst h1; rw [GoMap.get?_cons_self, if_pos rfl]
      · have h2 : k0 ≠ k1 := fun e => h1 e.symm
        rw [GoMap.get?_cons_ne _ _ _ _ h2, GoMap.get?_cons_ne _ _ _ _ h2, if_neg h1]
    · next h =>
      by_cases h1 : k0 = k1
      · subst h1
        rw [GoMap.get?_cons_self, GoMap.get?_cons_self, if_neg h]
      · rw [GoMap.get?_cons_ne _ _ _ _ h1, GoMap.get?_cons_ne _ _ _ _ h1, ih]

theorem GoMap.get?_eq_none (m : GoMap) (k : String) (h : k ∉ m.map Prod.fst) :
    GoMap.get? m k = none := by
  induction m with
  | nil => rfl
  | cons e rest ih =>
    obtain ⟨k0, v0⟩ := e
    simp only [List.map_cons, List.mem_cons, not_or] at h
    rw [GoMap.get?_cons_ne _ _ _ _ (fun e => h.1 e.symm), ih h.2]

theorem GoMap.mem_iff_get? (m : GoMap) (hm : (m.map Prod.fst).Nodup) (k v : String) :
    (k, v) ∈ m ↔ GoMap.get? m k = some v := by
  induction m with
  | nil => simp [GoMap.get?]
  | cons e rest ih =>
    obtain ⟨k0, v0⟩ := e
    simp only [List.map_cons, List.nodup_cons] at hm
    by_cases h1 : k0 = k
    · subst h1
      rw [GoMap.get?_cons_self]
      constructor
      · intro hmem
        rcases List.mem_cons.1 hmem with h | h
        · cases h; rfl
        · exact absurd (List.mem_map_of_mem Prod.fst h) hm.1
      · intro h
        cases h
        exact List.mem_cons_self _ _
    · rw [GoMap.get?_cons_ne _ _ _ _ h1, ← ih hm.2]
      constructor
      · intro hmem
        rcases List.mem_cons.1 hmem with h | h
        · cases h; exact absurd rfl h1
        · exact h
      · intro h
        exact List.mem_cons_of_mem _ h

theorem GoMap.perm_of_get? (m1 m2 : GoMap) (h1 : (m1.map Prod.fst).Nodup)
    (h2 : (m2.map Prod.fst).Nodup) (h : ∀ k, GoMap.get? m1 k = GoMap.get? m2 k) :
    m1.Perm m2 := by
  refine (List.perm_ext_iff_of_nodup (List.Nodup.of_map _ h1) (List.Nodup.of_map _ h2)).2 ?_
  rintro ⟨k, v⟩
  rw [GoMap.mem_iff_get? m1 h1, GoMap.mem_iff_get? m2 h2, h]

/-! ## C4: ObjectToMap -/

/-- The loop of `ObjectToMap` on a collection whose `i`-th name is `item i` and
whose lookup of a name `k` gives `value k`. -/
theorem ObjectToMap_loop_eq {H : Host σ} {o : Val} {w : World σ} {n : Nat}
    {item : Nat → Val} {value : String → Val}
    (hidx : ∀ i, i < n → H.index w.host o i = .ok (item i))
    (hget : ∀ i, i < n → H.get w.host o (item i).String = .ok (value (item i).String))
    (is : List Nat) :
    ∀ acc : GoMap, (∀ i ∈ is, i < n) →
      ObjectToMap.loop H o is acc w =
        .ok (is.foldl (fun a i => GoMap.set a (item i).String (value (item i).String).String)
          acc, w) := by
  induction is with
  | nil => intro acc _; rfl
  | cons i rest ih =>
    intro acc hlt
    have hi : i < n := hlt i (List.mem_cons_self _ _)
    simp only [ObjectToMap.loop, js_bind_apply, jsIndex, jsGet, hidx i hi, hget i hi,
      List.foldl_cons]
    exact ih _ (fun j hj => hlt j (List.mem_cons_of_mem _ hj))

theorem GoMap.foldl_set_spec (name : Nat → String) (value : String → String) (is : List Nat) :
    ∀ acc : GoMap, (acc.map Prod.fst).Nodup →
      (∀ k, k ∈ acc.map Prod.fst → GoMap.get? acc k = some (value k)) →
      let m := is.foldl (fun a i => GoMap.set a (name i) (value (name i))) acc
      (m.map Prod.fst).Nodup ∧
      (∀ k, k ∈ m.map Prod.fst ↔ k ∈ acc.map Prod.fst ∨ ∃ i ∈ is, name i = k) ∧
      (∀ k, k ∈ m.map Prod.fst → GoMap.get? m k = some (value k)) := by
  induction is with
  | nil =>
    intro acc hnd hval
    simp only [List.foldl_nil]
    exact ⟨hnd, fun k => by simp, hval⟩
  | cons i rest ih =>
    intro acc hnd hval
    simp only [List.foldl_cons]
    have hnd1 := GoMap.nodup_set acc (name i) (value (name i)) hnd
    have hval1 : ∀ k, k ∈ (GoMap.set acc (name i) (value (name i))).map Prod.fst →
        GoMap.get? (GoMap.set acc (name i) (value (name i))) k = some (value k) := by
      intro k hk
      rw [GoMap.get?_set]
      split
      · next h => rw [h]
      · next h =>
        rcases (GoMap.keys_set _ _ _ _).1 hk with h1 | h1
        · exact absurd h1 h
        · exact hval k h1
    obtain ⟨a, b, c⟩ := ih _ hnd1 hval1
    refine ⟨a, ?_, c⟩
    intro k
    rw [b, GoMap.keys_set]
    constructor
    · rintro ((h | h) | ⟨j, hj, h⟩)
      · exact Or.inr ⟨i, List.mem_cons_self _ _, h.symm⟩
      · exact Or.inl h
      · exact Or.inr ⟨j, List.mem_cons_of_mem _ hj, h⟩
    · rintro (h | ⟨j, hj, h⟩)
      · exact Or.inl (Or.inr h)
      · rcases List.mem_cons.1 hj with e | e
        · subst e; exact Or.inl (Or.inl h.symm)
        · exact Or.inr ⟨j, e, h⟩

/-- What `ObjectToMap` returns on a collection whose length reads as `n`, whose
index `i < n` reads as `item i` and whose lookup of a name reads as `value` of
that name. -/
theorem ObjectToMap_spec (H : Host σ) (o : Val) (w : World σ) (n : Nat)
    (item : Nat → Val) (value : String → Val)
    (hlen : H.length w.host o = .ok (n : Int))
    (hidx : ∀ i, i < n → H.index w.host o i = .ok (item i))
    (hget : ∀ i, i < n → H.get w.host o (item i).String = .ok (value (item i).String)) :
    ∃ m : GoMap, ObjectToMap H o w = .ok (m, w) ∧
      (m.map Prod.fst).Nodup ∧
      (∀ k, k ∈ m.map Prod.fst ↔ ∃ i, i < n ∧ (item i).String = k) ∧
      (∀ k, k ∈ m.map Prod.fst → GoMap.get? m k = some (value k).String) := by
  have hloop := ObjectToMap_loop_eq hidx hget (List.range n) []
    (fun i hi => List.mem_range.1 hi)
  obtain ⟨a, b, c⟩ := GoMap.foldl_set_spec (fun i => (item i).String)
    (fun k => (value k).String) (List.range n) [] (by simp) (by simp)
  refine ⟨_, ?_, a, ?_, c⟩
  · simp only [ObjectToMap, js_bind_apply, jsLength, hlen, Int.toNat_ofNat]
    exact hloop
  · intro k
    rw [b]
    simp [List.mem_range]

/-- C4: let `o` be a well-formed host collection of length `n`: its length
reads as `n`, index `i < n` reads as `item i`, and looking up the name of an
index reads as `value` of that name.  Then `ObjectToMap` returns, without
touching the host, a map whose keys are distinct and are exactly the names
(the strings `(item i).String`, unchanged) found at the indices below `n`, and
which maps each such name `k` to the string of the value looked up for `k`;
other names are absent, and for `n = 0` the map is empty. -/
theorem ObjectToMap_keys_and_values (H : Host σ) (o : Val) (w : World σ) (n : Nat)
    (item : Nat → Val) (value : String → Val)
    (hlen : H.length w.host o = .ok (n : Int))
    (hidx : ∀ i, i < n → H.index w.host o i = .ok (item i))
    (hget : ∀ i, i < n → H.get w.host o (item i).String = .ok (value (item i).String)) :
    ∃ m : GoMap, ObjectToMap H o w = .ok (m, w) ∧
      (m.map Prod.fst).Nodup ∧
      (∀ k, k ∈ m.map Prod.fst ↔ ∃ i, i < n ∧ (item i).String = k) ∧
      (∀ k, k ∈ m.map Prod.fst → GoMap.get? m k = some (value k).String) ∧
      (∀ k, k ∉ m.map Prod.fst → GoMap.get? m k = none) ∧
      (n = 0 → m = []) := by
  obtain ⟨m, hrun, hnd, hkeys, hval⟩ := ObjectToMap_spec H o w n item value hlen hidx hget
  refine ⟨m, hrun, hnd, hkeys, hval, fun k hk => GoMap.get?_eq_none _ k hk, ?_⟩
  intro h0
  cases m with
  | nil => rfl
  | cons e rest =>
    obtain ⟨i, hi, -⟩ := (hkeys e.1).1 (by simp)
    omega

/-- Witness for C4 on the synthetic host: the collection with the names a, b, c
and the values 1, 2, 3 converts to the map a:1, b:2, c:3, the empty collection
to the empty map, and the hypotheses of C4 hold of the former. -/
theorem ObjectToMap_keys_and_values_witness :
    ObjectToMap host0 (.ref 5) worldColl
      = .ok ([("a", "1"), ("b", "2"), ("c", "3")], worldColl) ∧
    ObjectToMap host0 (.ref 5) worldEmptyColl = .ok ([], worldEmptyColl) ∧
    ∃ m : GoMap, ObjectToMap host0 (.ref 5) worldColl = .ok (m, worldColl) ∧
      (m.map Prod.fst).Nodup ∧
      (∀ k, k ∈ m.map Prod.fst ↔
        ∃ i, i < 3 ∧ (([Val.str "a", .str "b", .str "c"][i]?).getD .undefined).String = k) ∧
      (∀ k, k ∈ m.map Prod.fst → GoMap.get? m k = some
        (lookupProp [("a", .str "1"), ("b", .str "2"), ("c", .str "3")] k).String) ∧
      (∀ k, k ∉ m.map Prod.fst → GoMap.get? m k = none) ∧
      (3 = 0 → m = []) :=
  ⟨rfl, rfl, ObjectToMap_keys_and_values host0 (.ref 5) worldColl 3
    (fun i => ([Val.str "a", .str "b", .str "c"][i]?).getD .undefined)
    (fun k => lookupProp [("a", .str "1"), ("b", .str "2"), ("c", .str "3")] k)
    rfl (fun i hi => by interval_cases i <;> rfl) (fun i hi => by interval_cases i <;> rfl)⟩

/-! ## C9: ObjectToStringList and ObjectToList -/

theorem ObjectToStringList_loop_eq {H : Host σ} {o : Val} {w : World σ} {n : Nat}
    {item : Nat → Val} (hidx : ∀ i, i < n → H.index w.host o i = .ok (item i))
    (is : List Nat) :
    ∀ acc : List String, (∀ i ∈ is, i < n) →
      ObjectToStringList.loop H o is acc w
        = .ok (acc ++ is.map (fun i => (item i).String), w) := by
  induction is with
  | nil => intro acc _; simp [ObjectToStringList.loop]
  | cons i rest ih =>
    intro acc hlt
    have hi : i < n := hlt i (List.mem_cons_self _ _)
    simp only [ObjectToStringList.loop, js_bind_apply, jsIndex, hidx i hi]
    rw [ih _ (fun j hj => hlt j (List.mem_cons_of_mem _ hj))]
    simp

theorem ObjectToList_loop_eq {H : Host σ} {o : Val} {w : World σ} {n : Nat}
    {item : Nat → Val} (hidx : ∀ i, i < n → H.index w.host o i = .ok (item i))
    (is : List Nat) :
    ∀ acc : List Val, (∀ i ∈ is, i < n) →
      ObjectToList.loop H o is acc w = .ok (acc ++ is.map item, w) := by
  induction is with
  | nil => intro acc _; simp [ObjectToList.loop]
  | cons i rest ih =>
    intro acc hlt
    have hi : i < n := hlt i (List.mem_cons_self _ _)
    simp only [ObjectToList.loop, js_bind_apply, jsIndex, hidx i hi]
    rw [ih _ (fun j hj => hlt j (List.mem_cons_of_mem _ hj))]
    simp

/-- C9: let `o` be a well-formed host collection of length `n`: its length
reads as `n` and index `i < n` reads as `item i`.  Then `ObjectToStringList`
returns, without touching the host, a list of exactly `n` strings whose `i`-th
element is the string form of `item i`, and `ObjectToList` returns the list of
exactly `n` values whose `i`-th element is `item i` itself, not converted. -/
theorem ObjectToStringList_and_ObjectToList (H : Host σ) (o : Val) (w : World σ) (n : Nat)
    (item : Nat → Val)
    (hlen : H.length w.host o = .ok (n : Int))
    (hidx : ∀ i, i < n → H.index w.host o i = .ok (item i)) :
    (∃ l : List String, ObjectToStringList H o w = .ok (l, w) ∧ l.length = n ∧
      ∀ i, i < n → l[i]? = some (item i).String) ∧
    (∃ l : List Val, ObjectToList H o w = .ok (l, w) ∧ l.length = n ∧
      ∀ i, i < n → l[i]? = some (item i)) := by
  constructor
  · refine ⟨(List.range n).map (fun i => (item i).String), ?_, by simp, ?_⟩
    · simp only [ObjectToStringList, js_bind_apply, jsLength, hlen, Int.toNat_ofNat]
      rw [ObjectToStringList_loop_eq hidx _ _ (fun i hi => List.mem_range.1 hi)]
      simp
    · intro i hi
      simp [List.getElem?_map, List.getElem?_range hi]
  · refine ⟨(List.range n).map item, ?_, by simp, ?_⟩
    · simp only [ObjectToList, js_bind_apply, jsLength, hlen, Int.toNat_ofNat]
      rw [ObjectToList_loop_eq hidx _ _ (fun i hi => List.mem_range.1 hi)]
      simp
    · intro i hi
      simp [List.getElem?_map, List.getElem?_range hi]

/-- Witness for C9 on the synthetic host: the collection with the names a, b, c
converts to the strings a, b, c and to the three values themselves. -/
theorem ObjectToStringList_and_ObjectToList_witness :
    ObjectToStringList host0 (.ref 5) worldColl = .ok (["a", "b", "c"], worldColl) ∧
    ObjectToList host0 (.ref 5) worldColl
      = .ok ([.str "a", .str "b", .str "c"], worldColl) ∧
    ((∃ l : List String, ObjectToStringList host0 (.ref 5) worldColl = .ok (l, worldColl) ∧
        l.length = 3 ∧
        ∀ i, i < 3 → l[i]? = some
          (([Val.str "a", .str "b", .str "c"][i]?).getD .undefined).String) ∧
      (∃ l : List Val, ObjectToList host0 (.ref 5) worldColl = .ok (l, worldColl) ∧
        l.length = 3 ∧
        ∀ i, i < 3 → l[i]? = some (([Val.str "a", .str "b", .str "c"][i]?).getD .undefined))) :=
  ⟨rfl, rfl, ObjectToStringList_and_ObjectToList host0 (.ref 5) worldColl 3
    (fun i => ([Val.str "a", .str "b", .str "c"][i]?).getD .undefined)
    rfl (fun i hi => by interval_cases i <;> rfl)⟩

/-! ## C5: batch conversion -/

theorem AllObjectToWebResponse_loop_eq (H : Host σ) (os : List Val) :
    ∀ (acc : List WebResponse) (w : World σ),
      AllObjectToWebResponse.loop H os acc w =
        match convertEach (ObjectToWebResponse H) os w with
        | .error e => .error e
        | .ok (rs, w1) => .ok (acc ++ rs, w1) := by
  induction os with
  | nil => intro acc w; simp [AllObjectToWebResponse.loop, convertEach]
  | cons o rest ih =>
    intro acc w
    simp only [AllObjectToWebResponse.loop, convertEach, js_bind_apply, js_pure_apply]
    cases ObjectToWebResponse H o w with
    | error e => rfl
    | ok p =>
      obtain ⟨r, w1⟩ := p
      simp only [ih]
      cases convertEach (ObjectToWebResponse H) rest w1 with
      | error e => rfl
      | ok q => simp

theorem AllObjectToWebRequest_loop_eq (H : Host σ) (os : List Val) :
    ∀ (acc : List WebRequest) (w : World σ),
      AllObjectToWebRequest.loop H os acc w =
        match convertEach (ObjectToWebRequest H) os w with
        | .error e => .error e
        | .ok (rs, w1) => .ok (acc ++ rs, w1) := by
  induction os with
  | nil => intro acc w; simp [AllObjectToWebRequest.loop, convertEach]
  | cons o rest ih =>
    intro acc w
    simp only [AllObjectToWebRequest.loop, convertEach, js_bind_apply, js_pure_apply]
    cases ObjectToWebRequest H o w with
    | error e => rfl
    | ok p =>
      obtain ⟨r, w1⟩ := p
      simp only [ih]
      cases convertEach (ObjectToWebRequest H) rest w1 with
      | error e => rfl
      | ok q => simp

/-- The records of `convertEach` are as many as the objects, and the `i`-th
record is a result of `conv` on the `i`-th object. -/
theorem convertEach_ok {α : Type} (conv : Val → JS σ α) (os : List Val) :
    ∀ (w w1 : World σ) (rs : List α), convertEach conv os w = .ok (rs, w1) →
      rs.length = os.length ∧
      ∀ (i : Nat) (o : Val), os[i]? = some o →
        ∃ r wa wb, conv o wa = .ok (r, wb) ∧ rs[i]? = some r := by
  induction os with
  | nil =>
    intro w w1 rs h
    simp only [convertEach, js_pure_apply] at h
    cases h
    simp
  | cons o rest ih =>
    intro w w1 rs h
    simp only [convertEach, js_bind_apply, js_pure_apply] at h
    split at h
    · cases h
    · next r wa hr =>
      split at h
      · cases h
      · next rs1 wb hrs =>
        cases h
        obtain ⟨hl, hi⟩ := ih _ _ _ hrs
        refine ⟨by simp [hl], ?_⟩
        intro i o1 hio
        cases i with
        | zero =>
          simp only [List.getElem?_cons_zero, Option.some.injEq] at hio
          subst hio
          exact ⟨r, w, wa, hr, by simp⟩
        | succ j =>
          simp only [List.getElem?_cons_succ] at hio
          obtain ⟨r1, wc, wd, h1, h2⟩ := hi j o1 hio
          exact ⟨r1, wc, wd, h1, by simpa using h2⟩

/-- C5: `AllObjectToWebResponse` and `AllObjectToWebRequest` are the inbound
conversion applied to the objects one after the other in input order
(`convertEach`); when the batch returns, there are as many records as objects
and the `i`-th record is a result of the inbound conversion of the `i`-th
object. -/
theorem batch_conversion_in_order (H : Host σ) (os : List Val) (w : World σ) :
    AllObjectToWebResponse H os w = convertEach (ObjectToWebResponse H) os w ∧
    AllObjectToWebRequest H os w = convertEach (ObjectToWebRequest H) os w ∧
    (∀ rs w1, AllObjectToWebResponse H os w = .ok (rs, w1) →
      rs.length = os.length ∧
      ∀ (i : Nat) (o : Val), os[i]? = some o →
        ∃ r wa wb, ObjectToWebResponse H o wa = .ok (r, wb) ∧ rs[i]? = some r) ∧
    (∀ rs w1, AllObjectToWebRequest H os w = .ok (rs, w1) →
      rs.length = os.length ∧
      ∀ (i : Nat) (o : Val), os[i]? = some o →
        ∃ r wa wb, ObjectToWebRequest H o wa = .ok (r, wb) ∧ rs[i]? = some r) := by
  have e1 : AllObjectToWebResponse H os w = convertEach (ObjectToWebResponse H) os w := by
    rw [AllObjectToWebResponse, AllObjectToWebResponse_loop_eq]
    cases convertEach (ObjectToWebResponse H) os w with
    | error e => rfl
    | ok q => simp
  have e2 : AllObjectToWebRequest H os w = convertEach (ObjectToWebRequest H) os w := by
    rw [AllObjectToWebRequest, AllObjectToWebRequest_loop_eq]
    cases convertEach (ObjectToWebRequest H) os w with
    | error e => rfl
    | ok q => simp
  refine ⟨e1, e2, ?_, ?_⟩
  · intro rs w1 h
    rw [e1] at h
    exact convertEach_ok _ os w w1 rs h
  · intro rs w1 h
    rw [e2] at h
    exact convertEach_ok _ os w w1 rs h

/-- Witness for C5 on the synthetic host: three response objects with the
status codes 200, 404, 500 convert to records with these codes in this order,
and two request objects to records with their URLs in order. -/
theorem batch_conversion_in_order_witness :
    (∃ rs w1, AllObjectToWebResponse host0 [.ref 6, .ref 7, .ref 8] worldBatch = .ok (rs, w1) ∧
      rs.map (fun r => r.Status) = [200, 404, 500] ∧
      rs.length = [Val.ref 6, Val.ref 7, Val.ref 8].length ∧
      ∀ (i : Nat) (o : Val), [Val.ref 6, Val.ref 7, Val.ref 8][i]? = some o →
        ∃ r wa wb, ObjectToWebResponse host0 o wa = .ok (r, wb) ∧ rs[i]? = some r) ∧
    (∃ rs w1, AllObjectToWebRequest host0 [.ref 6, .ref 7] worldBatchReq = .ok (rs, w1) ∧
      rs.map (fun r => r.URL) = ["http://example.test/", "http://example.test/second"] ∧
      rs.length = [Val.ref 6, Val.ref 7].length ∧
      ∀ (i : Nat) (o : Val), [Val.ref 6, Val.ref 7][i]? = some o →
        ∃ r wa wb, ObjectToWebRequest host0 o wa = .ok (r, wb) ∧ rs[i]? = some r) :=
  ⟨⟨batchResponses.1, batchResponses.2, by decide!, by decide!,
      (batch_conversion_in_order host0 [.ref 6, .ref 7, .ref 8] worldBatch).2.2.1
        batchResponses.1 batchResponses.2 (by decide!)⟩,
   ⟨batchRequests.1, batchRequests.2, by decide!, by decide!,
      (batch_conversion_in_order host0 [.ref 6, .ref 7] worldBatchReq).2.2.2
        batchRequests.1 batchRequests.2 (by decide!)⟩⟩

/-! ## The heap of the synthetic host -/

theorem Synth.obj?_alloc_new (h : Synth) (o : Obj) :
    (h.alloc o).2.obj? (h.alloc o).1 = some o := by
  simp [Synth.obj?, Synth.alloc]

theorem Synth.obj?_alloc_old (h : Synth) (o : Obj) (id : Nat) (x : Obj)
    (hx : h.obj? id = some x) : (h.alloc o).2.obj? id = some x := by
  unfold Synth.obj? at hx ⊢
  split at hx
  · cases hx
  · next h5 =>
    rw [if_neg h5]
    simp only [Synth.alloc]
    have hlt : id - 5 < h.heap.length := by
      by_contra hc
      rw [List.getElem?_eq_none (Nat.le_of_not_lt hc)] at hx
      cases hx
    rw [List.getElem?_append_left hlt]
    exact hx

theorem Synth.obj?_lt (h : Synth) (id : Nat) (x : Obj) (hx : h.obj? id = some x) :
    5 ≤ id ∧ id < h.heap.length + 5 := by
  unfold Synth.obj? at hx
  split at hx
  · cases hx
  · next h5 =>
    have hlt : id - 5 < h.heap.length := by
      by_contra hc
      rw [List.getElem?_eq_none (Nat.le_of_not_lt hc)] at hx
      cases hx
    omega

theorem Synth.obj?_fresh (h : Synth) : h.obj? (h.heap.length + 5) = none := by
  simp [Synth.obj?]

theorem Synth.obj?_put_same (h : Synth) (id : Nat) (x o : Obj) (hx : h.obj? id = some x) :
    (h.put id o).obj? id = some o := by
  obtain ⟨h5, hlt⟩ := Synth.obj?_lt h id x hx
  have : id - 5 < h.heap.length := by omega
  simp [Synth.obj?, Synth.put, Nat.not_lt.2 h5, List.getElem?_set_self, this]

theorem Synth.obj?_put_other (h : Synth) (id id1 : Nat) (o : Obj) (h5 : 5 ≤ id)
    (hne : id1 ≠ id) : (h.put id o).obj? id1 = h.obj? id1 := by
  unfold Synth.obj?
  split
  · rfl
  · next h1 =>
    simp only [Synth.put]
    rw [List.getElem?_set_ne]
    omega

theorem Synth.heap_length_put (h : Synth) (id : Nat) (o : Obj) :
    (h.put id o).heap.length = h.heap.length := by
  simp [Synth.put]

theorem Synth.jobs_put (h : Synth) (id : Nat) (o : Obj) : (h.put id o).jobs = h.jobs := rfl

theorem Synth.jobs_alloc (h : Synth) (o : Obj) : (h.alloc o).2.jobs = h.jobs := rfl

theorem Synth.heap_length_alloc (h : Synth) (o : Obj) :
    (h.alloc o).2.heap.length = h.heap.length + 1 := by
  simp [Synth.alloc]

theorem Synth.alloc_fst (h : Synth) (o : Obj) : (h.alloc o).1 = h.heap.length + 5 := rfl

theorem synth_global (dec : List UInt8 → String) : (synth dec).global = .ref 0 := rfl

theorem synth_get (dec : List UInt8 → String) : (synth dec).get = synthGet := rfl

theorem synth_index (dec : List UInt8 → String) : (synth dec).index = synthIndex := rfl

theorem synth_length (dec : List UInt8 → String) : (synth dec).length = synthLength := rfl

theorem synth_call (dec : List UInt8 → String) : (synth dec).call = synthCall dec := rfl

theorem synth_new (dec : List UInt8 → String) : (synth dec).new = synthNew := rfl

theorem synth_newArrayBuffer (dec : List UInt8 → String) (h : Synth) (b : List UInt8) :
    (synth dec).newArrayBuffer h b = h.alloc (.buffer b) := rfl

theorem synth_resume (dec : List UInt8 → String) (h : Synth) :
    (synth dec).resume h = match h.jobs with
      | [] => none
      | s :: rest => some (s, { h with jobs := rest }) := rfl

/-! ## C10: MapToHeaders -/

/-- The `set` call that `MapToHeaders` issues for an entry. -/
theorem MapToHeaders_loop_trace {H : Host σ} {hdr : Val} (L : List (String × String)) :
    ∀ (w w1 : World σ), MapToHeaders.loop H hdr L w = .ok ((), w1) →
      w1.trace = w.trace ++ L.map (fun e =>
        Event.call hdr "set" [.val (.str e.1), .val (.str e.2)]) := by
  induction L with
  | nil =>
    intro w w1 h
    simp only [MapToHeaders.loop, js_pure_apply] at h
    cases h
    simp
  | cons e rest ih =>
    obtain ⟨name, val⟩ := e
    intro w w1 h
    simp only [MapToHeaders.loop, js_bind_apply] at h
    split at h
    · cases h
    · next hc =>
      obtain ⟨h1, -, rfl⟩ := jsCall_ok hc
      rw [ih _ _ h]
      simp

/-- On a host whose `set` returns for the entries of `L` and stores the pair
under the canonical form of the name, the loop of `MapToHeaders` returns and
leaves the collection with the entries written one after the other. -/
theorem MapToHeaders_loop_view {H : Host σ} {hdr : Val} (view : σ → Option GoMap)
    (canon norm : String → String) (L : List (String × String))
    (hset : ∀ (h : σ) (es : GoMap) (e : String × String), e ∈ L → view h = some es →
      ∃ v h1, H.call h hdr "set" [.val (.str e.1), .val (.str e.2)] = .ok (v, h1) ∧
        view h1 = some (GoMap.set es (canon e.1) (norm e.2))) :
    ∀ (w : World σ) (es : GoMap), view w.host = some es →
      ∃ w1, MapToHeaders.loop H hdr L w = .ok ((), w1) ∧
        view w1.host = some (L.foldl (fun a e => GoMap.set a (canon e.1) (norm e.2)) es) := by
  induction L with
  | nil =>
    intro w es hes
    exact ⟨w, by simp [MapToHeaders.loop], hes⟩
  | cons e rest ih =>
    obtain ⟨name, val⟩ := e
    intro w es hes
    obtain ⟨v, h1, hc, hv⟩ := hset w.host es (name, val) (List.mem_cons_self _ _) hes
    obtain ⟨w1, hrun, hfin⟩ := ih (fun h es e he => hset h es e (List.mem_cons_of_mem _ he))
      ⟨h1, w.trace ++ [Event.call hdr "set" [.val (.str name), .val (.str val)]]⟩ _ hv
    refine ⟨w1, ?_, hfin⟩
    simp only [MapToHeaders.loop, js_bind_apply, jsCall, hc]
    exact hrun

/-- Writing entries with distinct keys, none of them present yet, appends them. -/
theorem GoMap.foldl_set_append (L : GoMap) :
    ∀ es : GoMap, ((es ++ L).map Prod.fst).Nodup →
      L.foldl (fun a e => GoMap.set a e.1 e.2) es = es ++ L := by
  induction L with
  | nil => intro es _; simp
  | cons e rest ih =>
    obtain ⟨k, v⟩ := e
    intro es hnd
    have hset : GoMap.set es k v = es ++ [(k, v)] := by
      have hk : k ∉ es.map Prod.fst := by
        intro hmem
        rw [List.map_append, List.nodup_append] at hnd
        exact hnd.2.2 hmem (by simp)
      clear hnd ih
      induction es with
      | nil => rfl
      | cons e0 es0 ih0 =>
        obtain ⟨k0, v0⟩ := e0
        simp only [List.map_cons, List.mem_cons, not_or] at hk
        unfold GoMap.set
        rw [if_neg (fun e => hk.1 e.symm), ih0 hk.2]
        rfl
    simp only [List.foldl_cons, hset]
    rw [ih (es ++ [(k, v)]) (by simpa using hnd)]
    simp

theorem MapToHeaders_ok {H : Host σ} {G : GoRuntime} {m : GoMap} {w w1 : World σ} {hdr : Val}
    (h : MapToHeaders H G m w = .ok (hdr, w1)) :
    ∃ ctor r h1, H.get w.host H.global "Headers" = .ok ctor ∧
      H.new w.host ctor [] = .ok (r, h1) ∧ hdr = .ref r ∧
      w1.trace = w.trace ++ Event.construct ctor [] r ::
        (G.rangeOrder m).map (fun e =>
          Event.call (.ref r) "set" [.val (.str e.1), .val (.str e.2)]) := by
  simp only [MapToHeaders, js_bind_apply, js_pure_apply] at h
  repeat' (split at h <;> try contradiction)
  next hg _ _ _ hn _ _ _ hl =>
  obtain ⟨e1, rfl⟩ := jsGet_ok hg
  obtain ⟨r, h1, e2, rfl, rfl⟩ := jsNew_ok hn
  have ht := MapToHeaders_loop_trace _ _ _ hl
  cases h
  exact ⟨_, r, h1, e1, e2, rfl, by rw [ht]; simp⟩

/-- On a host whose new header collection is empty and whose `set` stores each
pair under the canonical form of its name, `MapToHeaders` of a map whose names
are distinct in canonical form returns a collection that holds exactly the
pairs of the map, in canonical form. -/
theorem MapToHeaders_view (H : Host σ) (G : GoRuntime) (m : GoMap) (w : World σ)
    (view : σ → Val → Option GoMap) (canon norm : String → String) (ctor : Val) (r : Nat)
    (h1 : σ) (hget : H.get w.host H.global "Headers" = .ok ctor)
    (hnew : H.new w.host ctor [] = .ok (r, h1)) (hempty : view h1 (.ref r) = some [])
    (hset : ∀ (h : σ) (es : GoMap) (e : String × String), e ∈ m →
      view h (.ref r) = some es →
      ∃ v h2, H.call h (.ref r) "set" [.val (.str e.1), .val (.str e.2)] = .ok (v, h2) ∧
        view h2 (.ref r) = some (GoMap.set es (canon e.1) (norm e.2)))
    (hnd : (m.map (fun e => canon e.1)).Nodup) :
    ∃ w1 es, MapToHeaders H G m w = .ok (.ref r, w1) ∧ view w1.host (.ref r) = some es ∧
      es.Perm (m.map (fun e => (canon e.1, norm e.2))) := by
  have hperm := G.rangeOrder_perm m
  obtain ⟨w1, hrun, hfin⟩ := MapToHeaders_loop_view (fun h => view h (.ref r)) canon norm
    (G.rangeOrder m) (fun h es e he => hset h es e (hperm.mem_iff.1 he))
    ⟨h1, w.trace ++ [Event.construct ctor [] r]⟩ [] hempty
  refine ⟨w1, _, ?_, hfin, ?_⟩
  · simp only [MapToHeaders, js_bind_apply, js_pure_apply, jsGet, jsNew, hget, hnew, hrun]
  · have hfold : (G.rangeOrder m).foldl (fun a e => GoMap.set a (canon e.1) (norm e.2)) []
        = ((G.rangeOrder m).map (fun e : String × String => (canon e.1, norm e.2))).foldl
            (fun a e => GoMap.set a e.1 e.2) [] := by
      rw [List.foldl_map]
    have hnd1 : (([] ++ (G.rangeOrder m).map
        (fun e : String × String => (canon e.1, norm e.2))).map Prod.fst).Nodup := by
      rw [List.nil_append, List.map_map]
      exact ((hperm.map (fun e => canon e.1)).nodup_iff).2 hnd
    rw [hfold, GoMap.foldl_set_append _ _ hnd1, List.nil_append]
    exact hperm.map _

/-- On the synthetic host `set` with a valid name and value returns and stores
the pair, the name in lower case and the value normalised. -/
theorem synth_set (dec : List UInt8 → String) (h : Synth) (r : Nat) (es : GoMap)
    (n v : String) (hes : synthHeaders h (.ref r) = some es)
    (hn : validHeaderName n = true) (hv : validHeaderValue (normaliseHeaderValue v) = true) :
    ∃ x h2, (synth dec).call h (.ref r) "set" [.val (.str n), .val (.str v)] = .ok (x, h2) ∧
      synthHeaders h2 (.ref r) = some (GoMap.set es (lowerHeaderName n) (normaliseHeaderValue v)) := by
  have hobj : h.obj? r = some (.headers es) := by
    simp only [synthHeaders] at hes
    split at hes
    · next heq => cases hes; exact heq
    · cases hes
  refine ⟨.undefined, h.put r (.headers (GoMap.set es (lowerHeaderName n)
    (normaliseHeaderValue v))), ?_, ?_⟩
  · simp [synth_call, synthCall, hobj, headersSet, hn, hv, Val.String]
  · simp only [synthHeaders, Synth.obj?_put_same h r _ _ hobj]

/-- C10, as stated, fails on the synthetic host, whose `set` is the platform's.
The Go map with the entries A: 1 and a: 2 has two distinct names, and
`MapToHeaders` calls `set` once for each; the resulting collection holds one
pair, not the two pairs of the map, and which value it holds depends on the
order the entries are visited in: 2 when A is visited first, 1 when a is. -/
theorem MapToHeaders_mixed_case_counterexample :
    (mixedCaseHeaders.map Prod.fst).Nodup ∧
    (∃ w1, MapToHeaders host0 goInOrder mixedCaseHeaders world0 = .ok (.ref 5, w1) ∧
      w1.trace = [Event.construct (.ref 1) [] 5,
        Event.call (.ref 5) "set" [.val (.str "A"), .val (.str "1")],
        Event.call (.ref 5) "set" [.val (.str "a"), .val (.str "2")]] ∧
      synthHeaders w1.host (.ref 5) = some [("a", "2")]) ∧
    (∃ w1, MapToHeaders host0 goReversed mixedCaseHeaders world0 = .ok (.ref 5, w1) ∧
      w1.trace = [Event.construct (.ref 1) [] 5,
        Event.call (.ref 5) "set" [.val (.str "a"), .val (.str "2")],
        Event.call (.ref 5) "set" [.val (.str "A"), .val (.str "1")]] ∧
      synthHeaders w1.host (.ref 5) = some [("a", "1")]) :=
  ⟨by decide, ⟨_, rfl, rfl, rfl⟩, ⟨_, rfl, rfl, rfl⟩⟩

/-- C10 (amended): when `MapToHeaders` returns, it has read the `Headers`
constructor from the global object, constructed one new object with no
argument, and then issued on that object exactly the calls `set(name, value)`
for the entries of some rearrangement `visited` of `m` (the order the runtime
visits them): one call per entry and no other interaction; the new object is
the result.  What the collection then holds is decided by the host's `set`.
On every host whose new collection is empty and whose `set` returns for the
entries of `m` and stores the pair under the canonical form `canon` of the name
with the value normalised by `norm`, replacing the entry of the same canonical
name (`view` tells the entries of a collection), `MapToHeaders` returns for
every map whose names are distinct in canonical form, and the collection
holds exactly the pairs of `m`, in canonical form, whatever order the entries
are visited in. -/
theorem MapToHeaders_sets_each_entry_once (H : Host σ) (G : GoRuntime) (m : GoMap)
    (w : World σ) :
    (∀ hdr w1, MapToHeaders H G m w = .ok (hdr, w1) →
      ∃ (ctor : Val) (r : Nat) (h1 : σ) (visited : GoMap),
        H.get w.host H.global "Headers" = .ok ctor ∧
        H.new w.host ctor [] = .ok (r, h1) ∧ hdr = .ref r ∧
        visited.Perm m ∧
        w1.trace = w.trace ++ Event.construct ctor [] r ::
          visited.map (fun e =>
            Event.call (.ref r) "set" [.val (.str e.1), .val (.str e.2)])) ∧
    (∀ (view : σ → Val → Option GoMap) (canon norm : String → String) (ctor : Val) (r : Nat)
      (h1 : σ),
      H.get w.host H.global "Headers" = .ok ctor →
      H.new w.host ctor [] = .ok (r, h1) →
      view h1 (.ref r) = some [] →
      (∀ (h : σ) (es : GoMap) (e : String × String), e ∈ m → view h (.ref r) = some es →
        ∃ v h2, H.call h (.ref r) "set" [.val (.str e.1), .val (.str e.2)] = .ok (v, h2) ∧
          view h2 (.ref r) = some (GoMap.set es (canon e.1) (norm e.2))) →
      (m.map (fun e => canon e.1)).Nodup →
      ∃ w1 es, MapToHeaders H G m w = .ok (.ref r, w1) ∧ view w1.host (.ref r) = some es ∧
        es.Perm (m.map (fun e => (canon e.1, norm e.2)))) := by
  constructor
  · intro hdr w1 h
    obtain ⟨ctor, r, h1, e1, e2, e3, e4⟩ := MapToHeaders_ok h
    exact ⟨ctor, r, h1, G.rangeOrder m, e1, e2, e3, G.rangeOrder_perm m, e4⟩
  · intro view canon norm ctor r h1 hget hnew hempty hset hnd
    exact MapToHeaders_view H G m w view canon norm ctor r h1 hget hnew hempty hset hnd

/-- Witness for C10 (amended) on the synthetic host, with a runtime that visits
the entries in reverse order.  The names Content-Type and X-Trace are stored in
lower case and the value of the second without the blanks around it. -/
theorem MapToHeaders_sets_each_entry_once_witness :
    (∃ w1, MapToHeaders host0 goReversed typedHeaders world0 = .ok (.ref 5, w1) ∧
      w1.trace = [Event.construct (.ref 1) [] 5,
        Event.call (.ref 5) "set" [.val (.str "X-Trace"), .val (.str " 7 ")],
        Event.call (.ref 5) "set" [.val (.str "Content-Type"), .val (.str "text/plain")]] ∧
      ∃ (ctor : Val) (r : Nat) (h1 : Synth) (visited : GoMap),
        host0.get world0.host host0.global "Headers" = .ok ctor ∧
        host0.new world0.host ctor [] = .ok (r, h1) ∧ Val.ref 5 = .ref r ∧
        visited.Perm typedHeaders ∧
        w1.trace = world0.trace ++ Event.construct ctor [] r ::
          visited.map (fun e =>
            Event.call (.ref r) "set" [.val (.str e.1), .val (.str e.2)])) ∧
    ((typedHeaders.map (fun e => lowerHeaderName e.1)).Nodup ∧
      typedHeaders.map (fun e => (lowerHeaderName e.1, normaliseHeaderValue e.2))
        = [("content-type", "text/plain"), ("x-trace", "7")] ∧
      ∃ w1 es, MapToHeaders host0 goReversed typedHeaders world0 = .ok (.ref 5, w1) ∧
        synthHeaders w1.host (.ref 5) = some es ∧
        es.Perm (typedHeaders.map
          (fun e => (lowerHeaderName e.1, normaliseHeaderValue e.2)))) :=
  ⟨⟨_, rfl, rfl,
      (MapToHeaders_sets_each_entry_once host0 goReversed typedHeaders world0).1 _ _ rfl⟩,
   ⟨by decide, by decide,
    (MapToHeaders_sets_each_entry_once host0 goReversed typedHeaders world0).2
      synthHeaders lowerHeaderName normaliseHeaderValue (.ref 1) 5 _ rfl rfl rfl
      (fun h es e he hes => by
        have hv : validHeaderName e.1 = true ∧
            validHeaderValue (normaliseHeaderValue e.2) = true := by
          revert e
          decide
        exact synth_set asciiText h 5 es e.1 e.2 hes hv.1 hv.2)
      (by decide)⟩⟩

/-! ## The conversions on the synthetic host -/

/-- On the synthetic host, as on the platform, a header collection has no
length: `ObjectToMap` of it is the empty map, whatever entries it holds. -/
theorem synth_ObjectToMap_headers (dec : List UInt8 → String) (w : World Synth) (id : Nat)
    (es : GoMap) (hobj : w.host.obj? id = some (.headers es)) :
    ObjectToMap (synth dec) (.ref id) w = .ok ([], w) := by
  simp [ObjectToMap, jsLength, synth_length, synthLength, hobj, ObjectToMap.loop]

/-! ## C6: outbound conversion of a record without platform object -/

theorem WebResponseToJSResponse_unset (H : Host σ) (G : GoRuntime) (w : World σ)
    (res : WebResponse) (hu : res.Underline = Val.null) (u : Val) (res1 : WebResponse)
    (w1 : World σ) :
    WebResponseToJSResponse H G res w = .ok ((u, res1), w1) ↔
      ∃ (buf : Nat) (h1 : σ) (blobCtor : Val) (blob : Nat) (h2 : σ) (respCtor hdrs : Val)
        (wh : World σ) (r : Nat) (h3 : σ),
        H.newArrayBuffer w.host res.Body = (buf, h1) ∧
        H.get h1 H.global "Blob" = .ok blobCtor ∧
        H.new h1 blobCtor [.val (.ref buf)] = .ok (blob, h2) ∧
        H.get h2 H.global "Response" = .ok respCtor ∧
        MapToHeaders H G res.Headers
          ⟨h2, w.trace ++ [Event.arrayBuffer res.Body buf,
            Event.construct blobCtor [.val (.ref buf)] blob]⟩ = .ok (hdrs, wh) ∧
        H.new wh.host respCtor [.val (.ref blob),
          .bag [("status", .num res.Status), ("statusText", .str res.StatusText),
                ("headers", hdrs)]] = .ok (r, h3) ∧
        u = .ref r ∧ res1 = { res with Underline := .ref r } ∧
        w1 = ⟨h3, wh.trace ++ [Event.construct respCtor [.val (.ref blob),
          .bag [("status", .num res.Status), ("statusText", .str res.StatusText),
                ("headers", hdrs)]] r]⟩ := by
  constructor
  · intro h
    simp only [WebResponseToJSResponse, hu, ne_eq, not_true_eq_false, if_false,
      js_bind_apply, js_pure_apply] at h
    repeat' (split at h <;> try contradiction)
    next hb _ _ _ g1 _ _ _ n1 _ _ _ g2 _ _ _ hm _ _ _ n2 =>
    have hb1 : ∃ buf h1, H.newArrayBuffer w.host res.Body = (buf, h1) := ⟨_, _, rfl⟩
    obtain ⟨buf, h1, hbuf⟩ := hb1
    simp only [jsNewArrayBuffer, hbuf] at hb
    cases hb
    obtain ⟨e1, rfl⟩ := jsGet_ok g1
    obtain ⟨blob, h2, e2, rfl, rfl⟩ := jsNew_ok n1
    obtain ⟨e3, rfl⟩ := jsGet_ok g2
    obtain ⟨r, h3, e4, rfl, rfl⟩ := jsNew_ok n2
    cases h
    simp only [List.append_assoc, List.singleton_append] at hm
    exact ⟨buf, h1, _, blob, h2, _, _, _, r, h3, hbuf, e1, e2, e3, hm, e4, rfl, rfl, rfl⟩
  · rintro ⟨buf, h1, blobCtor, blob, h2, respCtor, hdrs, wh, r, h3, hbuf, e1, e2, e3, hm, e4,
      rfl, rfl, rfl⟩
    simp only [WebResponseToJSResponse, hu, ne_eq, not_true_eq_false, if_false,
      js_bind_apply, js_pure_apply, jsNewArrayBuffer, hbuf, jsGet, e1, jsNew, e2, e3,
      List.append_assoc, List.singleton_append, hm, e4]

theorem WebRequestToJSRequest_unset (H : Host σ) (G : GoRuntime) (w : World σ)
    (req : WebRequest) (hu : req.Underline = Val.null) (u : Val) (req1 : WebRequest)
    (w1 : World σ) :
    WebRequestToJSRequest H G req w = .ok ((u, req1), w1) ↔
      ∃ (reqCtor hdrs : Val) (wh : World σ) (r : Nat) (h3 : σ),
        H.get w.host H.global "Request" = .ok reqCtor ∧
        MapToHeaders H G req.Headers w = .ok (hdrs, wh) ∧
        H.new wh.host reqCtor [.val (.str req.URL),
          .bag [("body", .bytes req.Body), ("mode", .str req.Mode),
                ("cache", .str req.Cache), ("method", .str req.Method),
                ("referrer", .str req.Referrer), ("credentials", .str req.Credentials),
                ("referrerPolicy", .str req.ReferrerPolicy), ("headers", hdrs)]]
          = .ok (r, h3) ∧
        u = .ref r ∧ req1 = { req with Underline := .ref r } ∧
        w1 = ⟨h3, wh.trace ++ [Event.construct reqCtor [.val (.str req.URL),
          .bag [("body", .bytes req.Body), ("mode", .str req.Mode),
                ("cache", .str req.Cache), ("method", .str req.Method),
                ("referrer", .str req.Referrer), ("credentials", .str req.Credentials),
                ("referrerPolicy", .str req.ReferrerPolicy), ("headers", hdrs)]] r]⟩ := by
  constructor
  · intro h
    simp only [WebRequestToJSRequest, hu, ne_eq, not_true_eq_false, if_false,
      js_bind_apply, js_pure_apply] at h
    repeat' (split at h <;> try contradiction)
    next g1 _ _ _ hm _ _ _ n2 =>
    obtain ⟨e1, rfl⟩ := jsGet_ok g1
    obtain ⟨r, h3, e4, rfl, rfl⟩ := jsNew_ok n2
    cases h
    exact ⟨_, _, _, r, h3, e1, hm, e4, rfl, rfl, rfl⟩
  · rintro ⟨reqCtor, hdrs, wh, r, h3, e1, hm, e4, rfl, rfl, rfl⟩
    simp only [WebRequestToJSRequest, hu, ne_eq, not_true_eq_false, if_false,
      js_bind_apply, js_pure_apply, jsGet, e1, jsNew, hm, e4]

/-- The outbound conversion of a response record depends on the record only
through `Body`, `Status`, `StatusText` and `Headers`. -/
theorem WebResponseToJSResponse_fields (H : Host σ) (G : GoRuntime) (w : World σ)
    (res res2 : WebResponse) (hu : res.Underline = Val.null) (hu2 : res2.Underline = Val.null)
    (hb : res2.Body = res.Body) (hs : res2.Status = res.Status)
    (hst : res2.StatusText = res.StatusText) (hh : res2.Headers = res.Headers)
    (u : Val) (res1 : WebResponse) (w1 : World σ)
    (h : WebResponseToJSResponse H G res w = .ok ((u, res1), w1)) :
    WebResponseToJSResponse H G res2 w = .ok ((u, { res2 with Underline := u }), w1) := by
  obtain ⟨buf, h1, blobCtor, blob, h2, respCtor, hdrs, wh, r, h3, e1, e2, e3, e4, e5, e6,
    rfl, -, rfl⟩ := (WebResponseToJSResponse_unset H G w res hu u res1 w1).1 h
  refine (WebResponseToJSResponse_unset H G w res2 hu2 _ _ _).2
    ⟨buf, h1, blobCtor, blob, h2, respCtor, hdrs, wh, r, h3, ?_, e2, e3, e4, ?_, ?_, rfl, rfl,
      ?_⟩
  · rw [hb]; exact e1
  · rw [hh, hb]; exact e5
  · rw [hs, hst]; exact e6
  · rw [hs, hst]

/-- C6, as stated, fails.  The platform object of a response is not constructed
from the scalar fields `Ok`, `Type`, `Redirected` and `FinalURL`: on every host,
whenever the conversion of the sample response returns, the conversion of the
record that differs from it in exactly these four fields returns the same
object, with the same host state and the same trace of host interactions.  On
the synthetic host, whose `Blob` constructor is the platform's, neither
conversion constructs a message object: both end with the fault of the `Blob`
constructor, which is handed the array buffer itself.  And for a request no
body container is constructed: the only interactions are the construction of
the header collection, its `set` call, and the construction of the request,
which is handed the `Body` bytes themselves. -/
theorem outbound_fields_counterexample :
    (sampleResponse.Ok ≠ flaggedResponse.Ok ∧
      sampleResponse.Type_ ≠ flaggedResponse.Type_ ∧
      sampleResponse.Redirected ≠ flaggedResponse.Redirected ∧
      sampleResponse.FinalURL ≠ flaggedResponse.FinalURL ∧
      (∀ (τ : Type) (H : Host τ) (G : GoRuntime) (w w1 : World τ) (u : Val)
          (res1 : WebResponse),
        WebResponseToJSResponse H G sampleResponse w = .ok ((u, res1), w1) →
        WebResponseToJSResponse H G flaggedResponse w
          = .ok ((u, { flaggedResponse with Underline := u }), w1)) ∧
      WebResponseToJSResponse host0 goInOrder sampleResponse world0
        = .error blobNotASequence ∧
      WebResponseToJSResponse host0 goInOrder flaggedResponse world0
        = .error blobNotASequence) ∧
    (∃ w1,
      WebRequestToJSRequest host0 goInOrder sampleRequest world0
        = .ok ((.ref 6, { sampleRequest with Underline := .ref 6 }), w1) ∧
      w1.trace = [Event.construct (.ref 1) [] 5,
        Event.call (.ref 5) "set" [.val (.str "a"), .val (.str "1")],
        Event.construct (.ref 4) [.val (.str "http://example.test/"),
          .bag [("body", .bytes [104, 105]), ("mode", .str "cors"),
                ("cache", .str "no-store"), ("method", .str "POST"),
                ("referrer", .str ""), ("credentials", .str "omit"),
                ("referrerPolicy", .str ""), ("headers", .ref 5)]] 6]) :=
  ⟨⟨by decide, by decide, by decide, by decide,
      fun τ H G w w1 u res1 h =>
        WebResponseToJSResponse_fields H G w sampleResponse flaggedResponse rfl rfl rfl rfl rfl
          rfl u res1 w1 h,
      rfl, rfl⟩,
    ⟨_, rfl, rfl⟩⟩

/-- C6 (amended): for a record whose `Underline` is unset, the outbound
conversion returns exactly when the host operations it performs succeed, and then it has
done the following and nothing else.  For a response: made an array buffer of
the record's `Body`, constructed a `Blob` from that buffer, built a header
collection from the record's `Headers` (`MapToHeaders`), and constructed a
`Response` from the blob and the options `status`, `statusText` (the record's
`Status` and `StatusText`) and `headers`.  For a request: built the header
collection and constructed a `Request` from the record's `URL` and the options
`body` (the record's `Body` bytes), `mode`, `cache`, `method`, `referrer`,
`credentials`, `referrerPolicy` and `headers`.  In both cases the object just
constructed is the result, it is stored in `Underline`, and every other field
of the record is unchanged.  The fields `Ok`, `Type`, `Redirected` and
`FinalURL` of a response record are not handed to the host: two records that
agree on `Body`, `Status`, `StatusText` and `Headers` give the same result, the
same host state and the same trace. -/
theorem outbound_constructs_and_stores (H : Host σ) (G : GoRuntime) (w : World σ) :
    (∀ res : WebResponse, res.Underline = Val.null → ∀ u res1 w1,
      (WebResponseToJSResponse H G res w = .ok ((u, res1), w1) ↔
        ∃ (buf : Nat) (h1 : σ) (blobCtor : Val) (blob : Nat) (h2 : σ) (respCtor hdrs : Val)
          (wh : World σ) (r : Nat) (h3 : σ),
          H.newArrayBuffer w.host res.Body = (buf, h1) ∧
          H.get h1 H.global "Blob" = .ok blobCtor ∧
          H.new h1 blobCtor [.val (.ref buf)] = .ok (blob, h2) ∧
          H.get h2 H.global "Response" = .ok respCtor ∧
          MapToHeaders H G res.Headers
            ⟨h2, w.trace ++ [Event.arrayBuffer res.Body buf,
              Event.construct blobCtor [.val (.ref buf)] blob]⟩ = .ok (hdrs, wh) ∧
          H.new wh.host respCtor [.val (.ref blob),
            .bag [("status", .num res.Status), ("statusText", .str res.StatusText),
                  ("headers", hdrs)]] = .ok (r, h3) ∧
          u = .ref r ∧ res1 = { res with Underline := .ref r } ∧
          w1 = ⟨h3, wh.trace ++ [Event.construct respCtor [.val (.ref blob),
            .bag [("status", .num res.Status), ("statusText", .str res.StatusText),
                  ("headers", hdrs)]] r]⟩)) ∧
    (∀ req : WebRequest, req.Underline = Val.null → ∀ u req1 w1,
      (WebRequestToJSRequest H G req w = .ok ((u, req1), w1) ↔
        ∃ (reqCtor hdrs : Val) (wh : World σ) (r : Nat) (h3 : σ),
          H.get w.host H.global "Request" = .ok reqCtor ∧
          MapToHeaders H G req.Headers w = .ok (hdrs, wh) ∧
          H.new wh.host reqCtor [.val (.str req.URL),
            .bag [("body", .bytes req.Body), ("mode", .str req.Mode),
                  ("cache", .str req.Cache), ("method", .str req.Method),
                  ("referrer", .str req.Referrer), ("credentials", .str req.Credentials),
                  ("referrerPolicy", .str req.ReferrerPolicy), ("headers", hdrs)]]
            = .ok (r, h3) ∧
          u = .ref r ∧ req1 = { req with Underline := .ref r } ∧
          w1 = ⟨h3, wh.trace ++ [Event.construct reqCtor [.val (.str req.URL),
            .bag [("body", .bytes req.Body), ("mode", .str req.Mode),
                  ("cache", .str req.Cache), ("method", .str req.Method),
                  ("referrer", .str req.Referrer), ("credentials", .str req.Credentials),
                  ("referrerPolicy", .str req.ReferrerPolicy), ("headers", hdrs)]] r]⟩)) ∧
    (∀ res res2 : WebResponse, res.Underline = Val.null → res2.Underline = Val.null →
      res2.Body = res.Body → res2.Status = res.Status →
      res2.StatusText = res.StatusText → res2.Headers = res.Headers →
      ∀ u res1 w1, WebResponseToJSResponse H G res w = .ok ((u, res1), w1) →
        WebResponseToJSResponse H G res2 w = .ok ((u, { res2 with Underline := u }), w1)) := by
  refine ⟨?_, ?_, ?_⟩
  · intro res hu u res1 w1
    exact WebResponseToJSResponse_unset H G w res hu u res1 w1
  · intro req hu u req1 w1
    exact WebRequestToJSRequest_unset H G w req hu u req1 w1
  · intro res res2 hu hu2 hb hs hst hh u res1 w1 h
    exact WebResponseToJSResponse_fields H G w res res2 hu hu2 hb hs hst hh u res1 w1 h

/-- Witness for C6 (amended).  The sample records have `Underline` unset.  On
the synthetic host the conversion of the sample request returns the new object
6, stored in `Underline` with the other fields unchanged.  The conversion of a
response returns only where the `Blob` constructor takes the array buffer it is
handed: on the host with the replaced constructor the sample response converts
to the new object 8, and the record that differs from it in `Ok`, `Type`,
`Redirected` and `FinalURL` converts to the same object with the same host
state and trace. -/
theorem outbound_constructs_and_stores_witness :
    (sampleResponse.Underline = Val.null ∧ ∃ w1,
      WebResponseToJSResponse hostPatched goInOrder sampleResponse world0
        = .ok ((.ref 8, { sampleResponse with Underline := .ref 8 }), w1)) ∧
    (sampleRequest.Underline = Val.null ∧ ∃ w1,
      WebRequestToJSRequest host0 goInOrder sampleRequest world0
        = .ok ((.ref 6, { sampleRequest with Underline := .ref 6 }), w1)) ∧
    (∃ res1 w1,
      WebResponseToJSResponse hostPatched goInOrder sampleResponse world0
        = .ok ((.ref 8, res1), w1) ∧
      WebResponseToJSResponse hostPatched goInOrder flaggedResponse world0
        = .ok ((.ref 8, { flaggedResponse with Underline := .ref 8 }), w1)) :=
  ⟨⟨rfl, _, ((outbound_constructs_and_stores hostPatched goInOrder world0).1 sampleResponse
      rfl _ _ _).2 ⟨5, _, .ref 2, 6, _, .ref 3, .ref 7, _, 8, _, rfl, rfl, rfl, rfl, rfl, rfl,
        rfl, rfl, rfl⟩⟩,
   ⟨rfl, _, ((outbound_constructs_and_stores host0 goInOrder world0).2.1 sampleRequest rfl
      _ _ _).2 ⟨.ref 4, .ref 5, _, 6, _, rfl, rfl, rfl, rfl, rfl, rfl⟩⟩,
   ⟨_, _, rfl, (outbound_constructs_and_stores hostPatched goInOrder world0).2.2
      sampleResponse flaggedResponse rfl rfl rfl rfl rfl rfl _ _ _ rfl⟩⟩

/-! ## C7: how the scalar fields are read -/

/-- C7, on a request object of the platform's shape: object 6 of the synthetic
host is a request whose `mode` is the property "cors".  `ObjectToWebRequest`
does not read it: it invokes `mode` as a method, which throws, and the
conversion does not return. -/
theorem ObjectToWebRequest_invokes_mode :
    host0.get worldReqProps.host (.ref 6) "mode" = .ok (.str "cors") ∧
    host0.call worldReqProps.host (.ref 6) "mode" [] = .error notAFunction ∧
    ObjectToWebRequest host0 (.ref 6) worldReqProps = .error notAFunction := by
  decide!

theorem lookupProp_cons (k0 : String) (v0 : Val) (ps : List (String × Val)) (k : String) :
    lookupProp ((k0, v0) :: ps) k = if k0 = k then v0 else lookupProp ps k := by
  by_cases h : k0 = k
  · subst h; simp [lookupProp, List.find?_cons]
  · have hb : (k0 == k) = false := beq_eq_false_iff_ne.2 h
    simp [lookupProp, List.find?_cons, hb, h]

/-- Property read of a response object on the synthetic host. -/
theorem synthGet_response (h : Synth) (id : Nat) (r : RespObj) (key : String)
    (hobj : h.obj? id = some (.response r)) :
    synthGet h (.ref id) key = .ok (lookupProp r.props key) := by
  have h5 := (Synth.obj?_lt _ _ _ hobj).1
  have hne : id ≠ 0 := by omega
  simp [synthGet, hobj, hne]

/-- On the synthetic host, the inbound conversion of a response object with an
unread body, while no delivery is pending, returns: the body is the delivered
text, the scalar fields are the properties, `Headers` is empty (the header
collection has no length), and `Underline` is the clone, a new object. -/
theorem synth_ObjectToWebResponse (dec : List UInt8 → String) (w : World Synth) (id : Nat)
    (r : RespObj) (es : GoMap)
    (hobj : w.host.obj? id = some (.response r)) (hunread : r.bodyUsed = false)
    (hjobs : w.host.jobs = [])
    (hhdr : w.host.obj? r.headers = some (.headers es)) :
    ∃ w1 : World Synth,
      ObjectToWebResponse (synth dec) (.ref id) w = .ok ({
        Body := goBytes (dec r.body)
        Ok := r.ok
        Status := (Val.num r.status).Int
        StatusText := r.statusText
        Type_ := r.type
        Redirected := r.redirected
        FinalURL := r.useFinalURL
        Headers := []
        Underline := .ref (w.host.heap.length + 5) }, w1) ∧
      w1.host.obj? id = some (.response { r with bodyUsed := true }) ∧
      w1.host.obj? (w.host.heap.length + 5) = some (.response r) ∧
      w1.host.jobs = [] ∧
      w1.trace = w.trace ++ [Event.call (.ref id) "clone" [], Event.call (.ref id) "text" [],
        Event.call (.ref (w.host.heap.length + 6)) "then" [.val .func],
        Event.recv (dec r.body)] := by
  obtain ⟨h5, hlt⟩ := Synth.obj?_lt _ _ _ hobj
  -- the states the conversion goes through
  let hA : Synth := (w.host.alloc (.response r)).2
  let hB : Synth := ((hA.put id (.response { r with bodyUsed := true })).alloc
    (.promise (some (dec r.body)))).2
  let hD : Synth := { hB with jobs := [] }
  have hobjA : hA.obj? id = some (.response r) := Synth.obj?_alloc_old _ _ _ _ hobj
  have hlenA : hA.heap.length = w.host.heap.length + 1 := Synth.heap_length_alloc _ _
  have hpB : hB.obj? (w.host.heap.length + 6) = some (.promise (some (dec r.body))) := by
    have := Synth.obj?_alloc_new (hA.put id (.response { r with bodyUsed := true }))
      (.promise (some (dec r.body)))
    rw [Synth.alloc_fst, Synth.heap_length_put, hlenA] at this
    exact this
  have hjobsB : hB.jobs = [] := hjobs
  have hobjD : hD.obj? id = some (.response { r with bodyUsed := true }) :=
    Synth.obj?_alloc_old _ _ _ _ (Synth.obj?_put_same _ _ _ _ hobjA)
  have hcloneD : hD.obj? (w.host.heap.length + 5) = some (.response r) := by
    refine Synth.obj?_alloc_old _ _ _ _ ?_
    rw [Synth.obj?_put_other _ _ _ _ h5 (by omega)]
    exact Synth.obj?_alloc_new _ _
  have hneq : r.headers ≠ id := by
    intro e
    rw [e, hobj] at hhdr
    cases hhdr
  have hhdrD : hD.obj? r.headers = some (.headers es) := by
    refine Synth.obj?_alloc_old _ _ _ _ ?_
    rw [Synth.obj?_put_other _ _ _ _ h5 hneq]
    exact Synth.obj?_alloc_old _ _ _ _ hhdr
  have hmap := synth_ObjectToMap_headers dec
    ⟨hD, w.trace ++ [Event.call (.ref id) "clone" [], Event.call (.ref id) "text" [],
        Event.call (.ref (w.host.heap.length + 6)) "then" [.val .func],
        Event.recv (dec r.body)]⟩ r.headers es hhdrD
  refine ⟨⟨hD, w.trace ++ [Event.call (.ref id) "clone" [], Event.call (.ref id) "text" [],
        Event.call (.ref (w.host.heap.length + 6)) "then" [.val .func],
        Event.recv (dec r.body)]⟩, ?_, hobjD, hcloneD, rfl, rfl⟩
  have c1 : synthCall dec w.host (.ref id) "clone" []
      = .ok (.ref (w.host.heap.length + 5), hA) := by
    simp [synthCall, hobj, hunread, Synth.alloc_fst, hA]
  have c2 : synthCall dec hA (.ref id) "text" []
      = .ok (.ref (w.host.heap.length + 6), hB) := by
    simp [synthCall, hobjA, hunread, Synth.alloc_fst, Synth.heap_length_put, hlenA, hB]
  have c3 : synthCall dec hB (.ref (w.host.heap.length + 6)) "then" [.val .func]
      = .ok (.undefined, { hB with jobs := [dec r.body] }) := by
    simp [synthCall, hpB, hjobsB]
  have c4 : (synth dec).resume { hB with jobs := [dec r.body] } = some (dec r.body, hD) := rfl
  simp only [ObjectToWebResponse, js_bind_apply, js_pure_apply, jsCall, jsRecv, jsGet,
    synth_call, synth_get, c1, c2, c3, c4, synthGet_response _ _ _ _ hobjD,
    List.append_assoc, List.singleton_append, List.cons_append, List.nil_append]
  simp only [RespObj.props, lookupProp_cons, String.reduceEq, if_true, if_false, hmap,
    Val.Bool, Val.String]

/-! ## C3: outbound conversion followed by inbound conversion -/

/-- The outcome of the outbound conversion of a response record, a fault
included, depends on the record only through `Body`, `Status`, `StatusText` and
`Headers`. -/
theorem WebResponseToJSResponse_outcome (H : Host σ) (G : GoRuntime) (w : World σ)
    (res res2 : WebResponse) (hu : res.Underline = Val.null) (hu2 : res2.Underline = Val.null)
    (hb : res2.Body = res.Body) (hs : res2.Status = res.Status)
    (hst : res2.StatusText = res.StatusText) (hh : res2.Headers = res.Headers) :
    WebResponseToJSResponse H G res2 w =
      match WebResponseToJSResponse H G res w with
      | .ok ((u, _), w1) => .ok ((u, { res2 with Underline := u }), w1)
      | .error e => .error e := by
  simp only [WebResponseToJSResponse, hu, hu2, ne_eq, not_true_eq_false, if_false,
    js_bind_apply, js_pure_apply, hb, hs, hst, hh]
  repeat' split
  all_goals simp_all

/-- The round trip of a response record, outbound conversion and then inbound
conversion of the resulting object, has the same outcome for two records that
agree on `Body`, `Status`, `StatusText` and `Headers`. -/
theorem round_trip_fields (H : Host σ) (G : GoRuntime) (w : World σ)
    (res res2 : WebResponse) (hu : res.Underline = Val.null) (hu2 : res2.Underline = Val.null)
    (hb : res2.Body = res.Body) (hs : res2.Status = res.Status)
    (hst : res2.StatusText = res.StatusText) (hh : res2.Headers = res.Headers) :
    (WebResponseToJSResponse H G res2 >>= fun p => ObjectToWebResponse H p.1) w
      = (WebResponseToJSResponse H G res >>= fun p => ObjectToWebResponse H p.1) w := by
  simp only [js_bind_apply]
  rw [WebResponseToJSResponse_outcome H G w res res2 hu hu2 hb hs hst hh]
  cases WebResponseToJSResponse H G res w with
  | error e => rfl
  | ok p => rfl

/-- Go `Int()` of a number in the range of a 32-bit integer is the number. -/
theorem int_of_num_in_range (n : Int) (hlo : -2147483648 ≤ n) (hhi : n < 2147483648) :
    (Val.num n).Int = n := by
  have habs : n.natAbs < 10 ^ 21 := by omega
  simp only [Val.Int, habs, if_true, wrap32]
  omega

/-- The scalar fields of the record that the inbound conversion of a response
object returns are the properties that the object reports when the conversion
ends. -/
theorem ObjectToWebResponse_scalars {H : Host σ} {u : Val} {w1 w2 : World σ}
    {rec : WebResponse} (h : ObjectToWebResponse H u w1 = .ok (rec, w2)) :
    (∀ x, H.get w2.host u "ok" = .ok x → rec.Ok = x.Bool) ∧
    (∀ x, H.get w2.host u "status" = .ok x → rec.Status = x.Int) ∧
    (∀ x, H.get w2.host u "statusText" = .ok x → rec.StatusText = x.String) ∧
    (∀ x, H.get w2.host u "type" = .ok x → rec.Type_ = x.String) ∧
    (∀ x, H.get w2.host u "redirected" = .ok x → rec.Redirected = x.Bool) ∧
    (∀ x, H.get w2.host u "useFinalURL" = .ok x → rec.FinalURL = x.String) := by
  obtain ⟨h1, p, h2, v, h3, bd, h4, hdrs, -, -, -, -, -, ⟨x1, g1, e1⟩, ⟨x2, g2, e2⟩,
    ⟨x3, g3, e3⟩, ⟨x4, g4, e4⟩, ⟨x5, g5, e5⟩, ⟨x6, g6, e6⟩, -, -, hw⟩ :=
    ObjectToWebResponse_run h
  have hhost : w2.host = h4 := by rw [hw]
  rw [hhost]
  refine ⟨?_, ?_, ?_, ?_, ?_, ?_⟩
  · intro x hx; rw [g1] at hx; cases hx; exact e1
  · intro x hx; rw [g2] at hx; cases hx; exact e2
  · intro x hx; rw [g6] at hx; cases hx; exact e6
  · intro x hx; rw [g3] at hx; cases hx; exact e3
  · intro x hx; rw [g4] at hx; cases hx; exact e4
  · intro x hx; rw [g5] at hx; cases hx; exact e5

/-- C3, as stated, fails.  No host reproduces `Redirected`: the sample response
and the record that differs from it in `Redirected` only convert to the same
platform object, so on no host do both come back from the round trip with their
own `Redirected`.  On the synthetic host the outbound conversion of the sample
response does not return at all: it ends with the fault of the `Blob`
constructor, so there is no object to convert back.  The inbound conversion of
a response object whose header collection holds the pair a: 1 returns a record
with no header.  And for the sample request the outbound conversion returns,
but the inbound conversion of the constructed request object does not: it
invokes `mode` as a method. -/
theorem round_trip_counterexample :
    (sampleResponse.Underline = Val.null ∧ redirectedResponse.Underline = Val.null ∧
      ¬ ∃ (τ : Type) (H : Host τ) (G : GoRuntime) (w w1 w2 v1 v2 : World τ) (u1 u2 : Val)
          (r1 r2 rec1 rec2 : WebResponse),
        WebResponseToJSResponse H G sampleResponse w = .ok ((u1, r1), w1) ∧
        ObjectToWebResponse H u1 w1 = .ok (rec1, v1) ∧
        rec1.Redirected = sampleResponse.Redirected ∧
        WebResponseToJSResponse H G redirectedResponse w = .ok ((u2, r2), w2) ∧
        ObjectToWebResponse H u2 w2 = .ok (rec2, v2) ∧
        rec2.Redirected = redirectedResponse.Redirected) ∧
    WebResponseToJSResponse host0 goInOrder sampleResponse world0 = .error blobNotASequence ∧
    (synthHeaders worldResp.host (.ref 5) = some [("a", "1")] ∧
      host0.get worldResp.host (.ref 6) "headers" = .ok (.ref 5) ∧
      ∃ rec w1, ObjectToWebResponse host0 (.ref 6) worldResp = .ok (rec, w1) ∧
        rec.Headers = []) ∧
    (sampleRequest.Underline = Val.null ∧
      ∃ u req1 w1,
        WebRequestToJSRequest host0 goInOrder sampleRequest world0 = .ok ((u, req1), w1) ∧
        ObjectToWebRequest host0 u w1 = .error notAFunction) := by
  refine ⟨⟨rfl, rfl, ?_⟩, rfl, ⟨rfl, rfl, _, _, rfl, rfl⟩, ⟨rfl, _, _, _, rfl, rfl⟩⟩
  rintro ⟨τ, H, G, w, w1, w2, v1, v2, u1, u2, r1, r2, rec1, rec2, ho1, hi1, hr1, ho2, hi2, hr2⟩
  have hsame := WebResponseToJSResponse_fields H G w sampleResponse redirectedResponse rfl rfl
    rfl rfl rfl rfl u1 r1 w1 ho1
  rw [ho2] at hsame
  cases hsame
  rw [hi1] at hi2
  cases hi2
  rw [hr1] at hr2
  exact absurd hr2 (by decide)

/-- C3 (amended): for a response record `res` with `Underline` unset, on every
host.  The outcome of the round trip, outbound conversion and then inbound
conversion of the resulting object, is the same for every record that agrees
with `res` on `Body`, `Status`, `StatusText` and `Headers`: `Ok`, `Type`,
`Redirected` and `FinalURL` of the record play no part in it.  Whenever the
inbound conversion of a platform object `u` returns, the scalar fields of the
returned record are the properties `ok`, `status`, `statusText`, `type`,
`redirected` and `useFinalURL` that `u` reports, converted to Go values; so
`Status` and `StatusText` are those of `res` when `u` reports the status, a
number in the range of a 32-bit integer, and the status text of `res`, which
are the options `status` and `statusText` that the outbound conversion hands to
the `Response` constructor.  In particular, whenever the round trip of `res`
returns and the constructed object reports that status and status text, the
returned record has the `Status` and the `StatusText` of `res`. -/
theorem response_round_trip (H : Host σ) (G : GoRuntime) (w : World σ) (res : WebResponse)
    (hu : res.Underline = Val.null) :
    (∀ res2 : WebResponse, res2.Underline = Val.null → res2.Body = res.Body →
      res2.Status = res.Status → res2.StatusText = res.StatusText →
      res2.Headers = res.Headers →
      (WebResponseToJSResponse H G res2 >>= fun p => ObjectToWebResponse H p.1) w
        = (WebResponseToJSResponse H G res >>= fun p => ObjectToWebResponse H p.1) w) ∧
    (∀ (u : Val) (w1 w2 : World σ) (rec : WebResponse),
      ObjectToWebResponse H u w1 = .ok (rec, w2) →
      (∀ x, H.get w2.host u "ok" = .ok x → rec.Ok = x.Bool) ∧
      (∀ x, H.get w2.host u "status" = .ok x → rec.Status = x.Int) ∧
      (∀ x, H.get w2.host u "statusText" = .ok x → rec.StatusText = x.String) ∧
      (∀ x, H.get w2.host u "type" = .ok x → rec.Type_ = x.String) ∧
      (∀ x, H.get w2.host u "redirected" = .ok x → rec.Redirected = x.Bool) ∧
      (∀ x, H.get w2.host u "useFinalURL" = .ok x → rec.FinalURL = x.String) ∧
      (H.get w2.host u "status" = .ok (.num res.Status) → -2147483648 ≤ res.Status →
        res.Status < 2147483648 → rec.Status = res.Status) ∧
      (H.get w2.host u "statusText" = .ok (.str res.StatusText) →
        rec.StatusText = res.StatusText)) ∧
    (∀ (u : Val) (res1 : WebResponse) (w1 w2 : World σ) (rec : WebResponse),
      WebResponseToJSResponse H G res w = .ok ((u, res1), w1) →
      ObjectToWebResponse H u w1 = .ok (rec, w2) →
      H.get w2.host u "status" = .ok (.num res.Status) → -2147483648 ≤ res.Status →
      res.Status < 2147483648 →
      H.get w2.host u "statusText" = .ok (.str res.StatusText) →
      rec.Status = res.Status ∧ rec.StatusText = res.StatusText) := by
  refine ⟨fun res2 hu2 hb hs hst hh => round_trip_fields H G w res res2 hu hu2 hb hs hst hh,
    ?_, ?_⟩
  · intro u w1 w2 rec h
    obtain ⟨s1, s2, s3, s4, s5, s6⟩ := ObjectToWebResponse_scalars h
    refine ⟨s1, s2, s3, s4, s5, s6, ?_, ?_⟩
    · intro hx hlo hhi
      rw [s2 _ hx, int_of_num_in_range _ hlo hhi]
    · intro hx
      rw [s3 _ hx]
      rfl
  · intro u res1 w1 w2 rec _ h hx hlo hhi hy
    obtain ⟨-, s2, s3, -, -, -⟩ := ObjectToWebResponse_scalars h
    refine ⟨?_, ?_⟩
    · rw [s2 _ hx, int_of_num_in_range _ hlo hhi]
    · rw [s3 _ hy]
      rfl

/-- Witness for C3 (amended) on the synthetic host.  The record that differs
from the sample response in `Ok`, `Type`, `Redirected` and `FinalURL` has the
same round trip as the sample response.  Object 6 is a response object that
reports the status 200 and the status text OK of the sample response, and that
it was not redirected; the record that its inbound conversion returns has
`Status` 200, `StatusText` OK and `Redirected` false.  The round trip itself
returns only where the `Blob` constructor takes the array buffer it is handed:
on the host with the replaced constructor the sample response converts to
object 8, and the record that comes back has its `Status` and `StatusText`. -/
theorem response_round_trip_witness :
    (sampleResponse.Underline = Val.null ∧ flaggedResponse.Underline = Val.null ∧
      (WebResponseToJSResponse host0 goInOrder flaggedResponse >>= fun p =>
          ObjectToWebResponse host0 p.1) world0
        = (WebResponseToJSResponse host0 goInOrder sampleResponse >>= fun p =>
          ObjectToWebResponse host0 p.1) world0) ∧
    (∃ rec w2, ObjectToWebResponse host0 (.ref 6) worldResp = .ok (rec, w2) ∧
      host0.get w2.host (.ref 6) "status" = .ok (.num sampleResponse.Status) ∧
      host0.get w2.host (.ref 6) "statusText" = .ok (.str sampleResponse.StatusText) ∧
      host0.get w2.host (.ref 6) "redirected" = .ok (.bool false) ∧
      rec.Status = sampleResponse.Status ∧ rec.StatusText = sampleResponse.StatusText ∧
      rec.Redirected = (Val.bool false).Bool ∧
      rec.Status = 200 ∧ rec.StatusText = "OK" ∧ rec.Redirected = false) ∧
    (∃ res1 w1 rec w2,
      WebResponseToJSResponse hostPatched goInOrder sampleResponse world0
        = .ok ((.ref 8, res1), w1) ∧
      ObjectToWebResponse hostPatched (.ref 8) w1 = .ok (rec, w2) ∧
      hostPatched.get w2.host (.ref 8) "status" = .ok (.num sampleResponse.Status) ∧
      hostPatched.get w2.host (.ref 8) "statusText" = .ok (.str sampleResponse.StatusText) ∧
      rec.Status = sampleResponse.Status ∧ rec.StatusText = sampleResponse.StatusText) :=
  ⟨⟨rfl, rfl,
      (response_round_trip host0 goInOrder world0 sampleResponse rfl).1 flaggedResponse rfl rfl
        rfl rfl rfl⟩,
   ⟨_, _, rfl, rfl, rfl, rfl,
      ((response_round_trip host0 goInOrder world0 sampleResponse rfl).2.1 (.ref 6) worldResp
        _ _ rfl).2.2.2.2.2.2.1 rfl (by decide) (by decide),
      ((response_round_trip host0 goInOrder world0 sampleResponse rfl).2.1 (.ref 6) worldResp
        _ _ rfl).2.2.2.2.2.2.2 rfl,
      ((response_round_trip host0 goInOrder world0 sampleResponse rfl).2.1 (.ref 6) worldResp
        _ _ rfl).2.2.2.2.1 _ rfl,
      rfl, rfl, rfl⟩,
   ⟨_, _, _, _, rfl, rfl, rfl, rfl,
      (response_round_trip hostPatched goInOrder world0 sampleResponse rfl).2.2 (.ref 8) _ _ _
        _ rfl rfl rfl (by decide) (by decide) rfl⟩⟩

/-! ## C8: the body of the record -/

theorem ObjectToWebResponse_body {H : Host σ} {o : Val} {w : World σ} {c p v : Val}
    {h1 h2 h3 h4 : σ} {s : String}
    (hclone : H.call w.host o "clone" [] = .ok (c, h1))
    (htext : H.call h1 o "text" [] = .ok (p, h2))
    (hthen : H.call h2 p "then" [.val .func] = .ok (v, h3))
    (hdeliver : H.resume h3 = some (s, h4))
    {rec : WebResponse} {w1 : World σ} (h : ObjectToWebResponse H o w = .ok (rec, w1)) :
    rec.Body = goBytes s ∧
    w1.trace = w.trace ++ [Event.call o "clone" [], Event.call o "text" [],
      Event.call p "then" [.val .func], Event.recv s] := by
  obtain ⟨h1a, pa, h2a, va, h3a, bd, h4a, hdrs, e1, e2, e3, e4, hb, -, -, -, -, -, -, -, -,
    hw⟩ := ObjectToWebResponse_run h
  rw [hclone] at e1
  cases e1
  rw [htext] at e2
  cases e2
  rw [hthen] at e3
  cases e3
  rw [hdeliver] at e4
  cases e4
  exact ⟨hb, by rw [hw]⟩

theorem ObjectToWebRequest_body {H : Host σ} {o : Val} {w : World σ} {c p v : Val}
    {h1 h2 h3 h4 : σ} {s : String}
    (hclone : H.call w.host o "clone" [] = .ok (c, h1))
    (htext : H.call h1 o "text" [] = .ok (p, h2))
    (hthen : H.call h2 p "then" [.val .func] = .ok (v, h3))
    (hdeliver : H.resume h3 = some (s, h4))
    {rec : WebRequest} {w1 : World σ} (h : ObjectToWebRequest H o w = .ok (rec, w1)) :
    rec.Body = goBytes s ∧
    w1.trace = w.trace ++ [Event.call o "clone" [], Event.call o "text" [],
      Event.call p "then" [.val .func], Event.recv s,
      Event.call o "mode" [], Event.call o "cache" [], Event.call o "referrer" [],
      Event.call o "credentials" [], Event.call o "referrerPolicy" []] := by
  obtain ⟨h1a, pa, h2a, va, h3a, bd, h4a, h5, h6, h7, h8, h9, hdrs, e1, e2, e3, e4, hb, -, -,
    -, -, -, -, -, -, -, -, hw⟩ := ObjectToWebRequest_run h
  rw [hclone] at e1
  cases e1
  rw [htext] at e2
  cases e2
  rw [hthen] at e3
  cases e3
  rw [hdeliver] at e4
  cases e4
  exact ⟨hb, by rw [hw]⟩

/-- C8: let the host deliver the string `s` to the text read: `clone` and
`text` on `o` return, `text` with the promise `p`, `then` on `p` returns, and
the event loop then invokes the callback with `s`.  Then the record returned by
`ObjectToWebResponse`, and likewise by `ObjectToWebRequest`, has as `Body`
exactly the bytes `[]byte(s)`; among the host interactions of the conversion
there is exactly one `text` read, the one on `o`, and exactly one receive,
which received `s`.  On the synthetic host the conversion of every response
object with an unread body (no delivery pending, header names distinct) does
return, with the bytes of the decoded body. -/
theorem inbound_body_is_delivered_text (H : Host σ) (o : Val) (w : World σ) (c p v : Val)
    (h1 h2 h3 h4 : σ) (s : String)
    (hclone : H.call w.host o "clone" [] = .ok (c, h1))
    (htext : H.call h1 o "text" [] = .ok (p, h2))
    (hthen : H.call h2 p "then" [.val .func] = .ok (v, h3))
    (hdeliver : H.resume h3 = some (s, h4)) :
    (∀ rec w1, ObjectToWebResponse H o w = .ok (rec, w1) →
      rec.Body = goBytes s ∧
      (w1.trace.drop w.trace.length).filter isTextRead = [Event.call o "text" []] ∧
      (w1.trace.drop w.trace.length).filter isRecv = [Event.recv s]) ∧
    (∀ rec w1, ObjectToWebRequest H o w = .ok (rec, w1) →
      rec.Body = goBytes s ∧
      (w1.trace.drop w.trace.length).filter isTextRead = [Event.call o "text" []] ∧
      (w1.trace.drop w.trace.length).filter isRecv = [Event.recv s]) ∧
    (∀ (dec : List UInt8 → String) (ws : World Synth) (id : Nat) (r : RespObj) (es : GoMap),
      ws.host.obj? id = some (.response r) → r.bodyUsed = false → ws.host.jobs = [] →
      ws.host.obj? r.headers = some (.headers es) → (es.map Prod.fst).Nodup →
      ∃ rec w1, ObjectToWebResponse (synth dec) (.ref id) ws = .ok (rec, w1) ∧
        rec.Body = goBytes (dec r.body) ∧
        (w1.trace.drop ws.trace.length).filter isTextRead = [Event.call (.ref id) "text" []] ∧
        (w1.trace.drop ws.trace.length).filter isRecv = [Event.recv (dec r.body)]) := by
  refine ⟨?_, ?_, ?_⟩
  · intro rec w1 h
    obtain ⟨hb, hw⟩ := ObjectToWebResponse_body hclone htext hthen hdeliver h
    rw [hw, List.drop_left]
    exact ⟨hb, by simp [isTextRead], by simp [isRecv]⟩
  · intro rec w1 h
    obtain ⟨hb, hw⟩ := ObjectToWebRequest_body hclone htext hthen hdeliver h
    rw [hw, List.drop_left]
    exact ⟨hb, by simp [isTextRead], by simp [isRecv]⟩
  · intro dec ws id r es hobj hunread hjobs hhdr _
    obtain ⟨w1, hrun, -, -, -, hw⟩ :=
      synth_ObjectToWebResponse dec ws id r es hobj hunread hjobs hhdr
    refine ⟨_, w1, hrun, rfl, ?_, ?_⟩
    · rw [hw, List.drop_left]; simp [isTextRead]
    · rw [hw, List.drop_left]; simp [isRecv]

/-- Witness for C8 on the synthetic host: the source delivers "hello" and the
record carries the five bytes of "hello". -/
theorem inbound_body_is_delivered_text_witness :
    (∃ rec w1, ObjectToWebResponse host0 (.ref 6) worldResp = .ok (rec, w1) ∧
      rec.Body = [104, 101, 108, 108, 111] ∧
      rec.Body = goBytes "hello" ∧
      (w1.trace.drop worldResp.trace.length).filter isTextRead
        = [Event.call (.ref 6) "text" []] ∧
      (w1.trace.drop worldResp.trace.length).filter isRecv = [Event.recv "hello"]) ∧
    (∃ rec w1, ObjectToWebRequest host0 (.ref 6) worldReq = .ok (rec, w1) ∧
      rec.Body = [104, 101, 108, 108, 111] ∧
      rec.Body = goBytes "hello" ∧
      (w1.trace.drop worldReq.trace.length).filter isTextRead
        = [Event.call (.ref 6) "text" []] ∧
      (w1.trace.drop worldReq.trace.length).filter isRecv = [Event.recv "hello"]) ∧
    (∃ rec w1, ObjectToWebResponse (synth asciiText) (.ref 6) worldResp = .ok (rec, w1) ∧
      rec.Body = goBytes (asciiText sampleRespObj.body) ∧
      (w1.trace.drop worldResp.trace.length).filter isTextRead
        = [Event.call (.ref 6) "text" []] ∧
      (w1.trace.drop worldResp.trace.length).filter isRecv
        = [Event.recv (asciiText sampleRespObj.body)]) :=
  ⟨⟨_, _, rfl, rfl,
      (inbound_body_is_delivered_text host0 (.ref 6) worldResp _ _ _ _ _ _ _ "hello"
        rfl rfl rfl rfl).1 _ _ rfl⟩,
   ⟨_, _, rfl, rfl,
      (inbound_body_is_delivered_text host0 (.ref 6) worldReq _ _ _ _ _ _ _ "hello"
        rfl rfl rfl rfl).2.1 _ _ rfl⟩,
   (inbound_body_is_delivered_text host0 (.ref 6) worldResp (.ref 7) (.ref 8) .undefined
        _ _ _ _ "hello" rfl rfl rfl rfl).2.2
      asciiText worldResp 6 sampleRespObj [("a", "1")] rfl rfl rfl rfl (by decide)⟩

/-! ## C2: which object the body is read from -/

/-- C2, as stated, fails on the synthetic host.  Object 6 is a response (in the
second half, a request) whose body is unread.  Inbound conversion returns;
afterwards the body of the caller's object 6 is marked used, and a second read
of the body through that reference (`text`, `then`, receive) never delivers. -/
theorem inbound_consumes_original_counterexample :
    (host0.get worldResp.host (.ref 6) "bodyUsed" = .ok (.bool false) ∧
      ∃ rec w1, ObjectToWebResponse host0 (.ref 6) worldResp = .ok (rec, w1) ∧
        host0.get w1.host (.ref 6) "bodyUsed" = .ok (.bool true) ∧
        (jsCall host0 (.ref 6) "text" [] >>= fun p =>
          jsCall host0 p "then" [.val .func] >>= fun _ => jsRecv host0) w1
          = .error Fault.blocked) ∧
    (host0.get worldReq.host (.ref 6) "bodyUsed" = .ok (.bool false) ∧
      ∃ rec w1, ObjectToWebRequest host0 (.ref 6) worldReq = .ok (rec, w1) ∧
        host0.get w1.host (.ref 6) "bodyUsed" = .ok (.bool true) ∧
        (jsCall host0 (.ref 6) "text" [] >>= fun p =>
          jsCall host0 p "then" [.val .func] >>= fun _ => jsRecv host0) w1
          = .error Fault.blocked) :=
  ⟨⟨rfl, _, _, rfl, rfl, rfl⟩, ⟨rfl, _, _, rfl, rfl, rfl⟩⟩

/-- C2 (amended): a returning inbound conversion first calls `clone` on the
caller's object `o` and keeps the result as the record's `Underline`; it then
issues its `text` read on `o` itself, in the host state left by `clone`.  The
trace of host calls is exactly `clone` on `o`, `text` on `o`, `then` on the
promise and the receive (followed, for a request, by the five method calls on
`o`): the body is read from the caller's object, and nothing is called on the
clone.  On the synthetic host, whose bodies can be read once, the conversion of
every response object with an unread body therefore leaves the caller's object
with its body used, and the clone in `Underline`, a new object, with its body
unread. -/
theorem inbound_clones_then_reads_original (H : Host σ) (o : Val) (w w1 : World σ) :
    (∀ rec : WebResponse, ObjectToWebResponse H o w = .ok (rec, w1) →
      ∃ h1 p h2 bd,
        H.call w.host o "clone" [] = .ok (rec.Underline, h1) ∧
        H.call h1 o "text" [] = .ok (p, h2) ∧
        w1.trace = w.trace ++ [Event.call o "clone" [], Event.call o "text" [],
          Event.call p "then" [.val .func], Event.recv bd]) ∧
    (∀ rec : WebRequest, ObjectToWebRequest H o w = .ok (rec, w1) →
      ∃ h1 p h2 bd,
        H.call w.host o "clone" [] = .ok (rec.Underline, h1) ∧
        H.call h1 o "text" [] = .ok (p, h2) ∧
        w1.trace = w.trace ++ [Event.call o "clone" [], Event.call o "text" [],
          Event.call p "then" [.val .func], Event.recv bd,
          Event.call o "mode" [], Event.call o "cache" [], Event.call o "referrer" [],
          Event.call o "credentials" [], Event.call o "referrerPolicy" []]) ∧
    (∀ (dec : List UInt8 → String) (ws : World Synth) (id : Nat) (r : RespObj) (es : GoMap),
      ws.host.obj? id = some (.response r) → r.bodyUsed = false → ws.host.jobs = [] →
      ws.host.obj? r.headers = some (.headers es) → (es.map Prod.fst).Nodup →
      ∃ rec ws1, ObjectToWebResponse (synth dec) (.ref id) ws = .ok (rec, ws1) ∧
        rec.Underline = .ref (ws.host.heap.length + 5) ∧
        ws.host.obj? (ws.host.heap.length + 5) = none ∧
        ws1.host.obj? (ws.host.heap.length + 5) = some (.response r) ∧
        ws1.host.obj? id = some (.response { r with bodyUsed := true })) := by
  refine ⟨?_, ?_, ?_⟩
  · intro rec h
    obtain ⟨h1, p, h2, v, h3, bd, h4, hdrs, hc, ht, -, -, -, -, -, -, -, -, -, -, -, hw⟩ :=
      ObjectToWebResponse_run h
    exact ⟨h1, p, h2, bd, hc, ht, by rw [hw]⟩
  · intro rec h
    obtain ⟨h1, p, h2, v, h3, bd, h4, h5, h6, h7, h8, h9, hdrs, hc, ht, -, -, -, -, -, -, -,
      -, -, -, -, -, -, hw⟩ := ObjectToWebRequest_run h
    exact ⟨h1, p, h2, bd, hc, ht, by rw [hw]⟩
  · intro dec ws id r es hobj hunread hjobs hhdr _
    obtain ⟨ws1, hrun, hused, hclone, -, -⟩ :=
      synth_ObjectToWebResponse dec ws id r es hobj hunread hjobs hhdr
    exact ⟨_, ws1, hrun, rfl, Synth.obj?_fresh _, hclone, hused⟩

/-- Witness for C2 (amended) on the synthetic host: both sample conversions
return, with the clone (object 7) as `Underline`; after the conversion of the
sample response the body of object 6 is used and that of the clone is not. -/
theorem inbound_clones_then_reads_original_witness :
    (∃ rec w1, ObjectToWebResponse host0 (.ref 6) worldResp = .ok (rec, w1) ∧
      rec.Underline = .ref 7 ∧
      ∃ h1 p h2 bd,
        host0.call worldResp.host (.ref 6) "clone" [] = .ok (rec.Underline, h1) ∧
        host0.call h1 (.ref 6) "text" [] = .ok (p, h2) ∧
        w1.trace = worldResp.trace ++ [Event.call (.ref 6) "clone" [],
          Event.call (.ref 6) "text" [], Event.call p "then" [.val .func], Event.recv bd]) ∧
    (∃ rec w1, ObjectToWebRequest host0 (.ref 6) worldReq = .ok (rec, w1) ∧
      rec.Underline = .ref 7 ∧
      ∃ h1 p h2 bd,
        host0.call worldReq.host (.ref 6) "clone" [] = .ok (rec.Underline, h1) ∧
        host0.call h1 (.ref 6) "text" [] = .ok (p, h2) ∧
        w1.trace = worldReq.trace ++ [Event.call (.ref 6) "clone" [],
          Event.call (.ref 6) "text" [], Event.call p "then" [.val .func], Event.recv bd,
          Event.call (.ref 6) "mode" [], Event.call (.ref 6) "cache" [],
          Event.call (.ref 6) "referrer" [], Event.call (.ref 6) "credentials" [],
          Event.call (.ref 6) "referrerPolicy" []]) ∧
    (∃ rec ws1, ObjectToWebResponse (synth asciiText) (.ref 6) worldResp = .ok (rec, ws1) ∧
      rec.Underline = .ref (worldResp.host.heap.length + 5) ∧
      worldResp.host.obj? (worldResp.host.heap.length + 5) = none ∧
      ws1.host.obj? (worldResp.host.heap.length + 5) = some (.response sampleRespObj) ∧
      ws1.host.obj? 6 = some (.response { sampleRespObj with bodyUsed := true })) :=
  ⟨⟨_, _, rfl, rfl,
      (inbound_clones_then_reads_original host0 (.ref 6) worldResp _).1 _ rfl⟩,
   ⟨_, _, rfl, rfl,
      (inbound_clones_then_reads_original host0 (.ref 6) worldReq _).2.1 _ rfl⟩,
   (inbound_clones_then_reads_original host0 (.ref 6) worldResp worldResp).2.2
      asciiText worldResp 6 sampleRespObj [("a", "1")] rfl rfl rfl rfl (by decide)⟩

/-! ## C11: RandString -/

theorem goLen_alphanum : goLen alphanum = 62 := by decide

/-- The index `b % 62` into `alphanum` is in range, for every byte `b`. -/
theorem goIndex_alphanum (b : Nat) :
    ∃ c, alphanum.data[b % 62]? = some c ∧
      goIndex alphanum (b % (goLen alphanum % 256)) = .ok c.toNat := by
  have hlt : b % 62 < alphanum.data.length := by
    have : alphanum.data.length = 62 := by decide
    rw [this]
    exact Nat.mod_lt _ (by decide)
  refine ⟨alphanum.data[b % 62], List.getElem?_eq_getElem hlt, ?_⟩
  simp only [goIndex, goLen_alphanum, Nat.reduceMod, List.getElem?_eq_getElem hlt]

/-- The loop of `RandString` over distinct indices in range returns; it
replaces the byte at each index by the byte of `alphanum` at that byte modulo
62 and leaves the other bytes alone. -/
theorem RandString_loop_spec (is : List Nat) :
    ∀ bytes : List Nat, (∀ i ∈ is, i < bytes.length) → is.Nodup →
      ∃ out, RandString.loop is bytes = .ok out ∧ out.length = bytes.length ∧
        (∀ j b, j ∈ is → bytes[j]? = some b →
          ∃ c, alphanum.data[b % 62]? = some c ∧ out[j]? = some c.toNat) ∧
        (∀ j, j ∉ is → out[j]? = bytes[j]?) := by
  induction is with
  | nil =>
    intro bytes _ _
    exact ⟨bytes, rfl, rfl, fun j b hj => absurd hj (List.not_mem_nil j), fun _ _ => rfl⟩
  | cons i rest ih =>
    intro bytes hlt hnd
    have hi : i < bytes.length := hlt i (List.mem_cons_self _ _)
    obtain ⟨hirest, hndrest⟩ := List.nodup_cons.1 hnd
    obtain ⟨c, hc, hidx⟩ := goIndex_alphanum bytes[i]
    obtain ⟨out, hrun, hlen, hin, hout⟩ := ih (bytes.set i c.toNat)
      (fun j hj => by rw [List.length_set]; exact hlt j (List.mem_cons_of_mem _ hj)) hndrest
    refine ⟨out, ?_, ?_, ?_, ?_⟩
    · simp only [RandString.loop, List.getElem?_eq_getElem hi, hidx]
      exact hrun
    · rw [hlen, List.length_set]
    · intro j b hj hb
      rcases List.mem_cons.1 hj with rfl | hj
      · rw [List.getElem?_eq_getElem hi] at hb
        cases hb
        refine ⟨c, hc, ?_⟩
        rw [hout j hirest, List.getElem?_set_self hi]
      · have hne : i ≠ j := fun e => hirest (e ▸ hj)
        exact hin j b hj (by rw [List.getElem?_set_ne hne]; exact hb)
    · intro j hj
      have hne : i ≠ j := fun e => hj (e ▸ List.mem_cons_self _ _)
      rw [hout j (fun h => hj (List.mem_cons_of_mem _ h)), List.getElem?_set_ne hne]

theorem length_randRead (rnd buf : List Nat) : (randRead rnd buf).length = buf.length := by
  simp only [randRead, List.length_append, List.length_map, List.length_take,
    List.length_drop]
  omega

/-- `RandString` returns for every supply of the random source and every
length that is not negative. -/
theorem RandString_spec (rnd : List Nat) (n : Nat) :
    ∃ s, RandString rnd (n : Int) = .ok s ∧ s.length = n ∧
      ∀ (i b : Nat), (randRead rnd (List.replicate n 0))[i]? = some b →
        ∃ c : Char, alphanum.data[b % 62]? = some c ∧ s.data[i]? = some c := by
  have hlen : (randRead rnd (List.replicate n 0)).length = n := by
    rw [length_randRead, List.length_replicate]
  obtain ⟨out, hrun, hol, hin, -⟩ := RandString_loop_spec
    (List.range (randRead rnd (List.replicate n 0)).length)
    (randRead rnd (List.replicate n 0)) (fun i hi => List.mem_range.1 hi)
    (List.nodup_range _)
  refine ⟨goString out, ?_, ?_, ?_⟩
  · have hn : ¬ ((n : Int) < 0) := by omega
    simp only [RandString, hn, if_false, Int.toNat_ofNat, hrun]
  · simp [goString, String.length, hol, hlen]
  · intro i b hb
    have hi : i < (randRead rnd (List.replicate n 0)).length := by
      by_contra hc
      rw [List.getElem?_eq_none (Nat.le_of_not_lt hc)] at hb
      cases hb
    obtain ⟨c, hc, ho⟩ := hin i b (List.mem_range.2 hi) hb
    refine ⟨c, hc, ?_⟩
    simp [goString, List.getElem?_map, ho]

/-- When the random source supplies exactly as many bytes as the buffer holds,
the buffer holds these bytes after the read. -/
theorem randRead_full (rnd : List Nat) (n : Nat) (hlen : rnd.length = n)
    (hbytes : ∀ b ∈ rnd, b < 256) : randRead rnd (List.replicate n 0) = rnd := by
  have hmap : rnd.map (fun b => b % 256) = rnd := by
    conv_rhs => rw [← List.map_id rnd]
    exact List.map_congr_left (fun b hb => Nat.mod_eq_of_lt (hbytes b hb))
  simp only [randRead, List.length_replicate, ← hlen, List.take_length, hmap]
  simp

/-- C11: for every length `n` that is not negative and every sequence `rnd` of
`n` bytes supplied by the random source, `RandString` returns (no index is out
of range) a string of exactly `n` characters, each of which is one of the
characters of `alphanum`; for the `i`-th supplied byte `b` the index `b % 62`
is below the length of `alphanum` and the `i`-th character of the result is the
character of `alphanum` at that index. -/
theorem RandString_alphanumeric (rnd : List Nat) (n : Nat) (hlen : rnd.length = n)
    (hbytes : ∀ b ∈ rnd, b < 256) :
    ∃ s, RandString rnd (n : Int) = .ok s ∧ s.length = n ∧
      (∀ c ∈ s.data, c ∈ alphanum.data) ∧
      (∀ (i b : Nat), rnd[i]? = some b →
        b % 62 < goLen alphanum ∧ s.data[i]? = alphanum.data[b % 62]?) := by
  obtain ⟨s, hrun, hsl, hpos⟩ := RandString_spec rnd n
  rw [randRead_full rnd n hlen hbytes] at hpos
  refine ⟨s, hrun, hsl, ?_, ?_⟩
  · intro c hc
    obtain ⟨i, hi, rfl⟩ := List.getElem_of_mem hc
    have hir : i < rnd.length := by
      have : s.data.length = n := hsl
      omega
    obtain ⟨c1, hc1, hs1⟩ := hpos i rnd[i] (List.getElem?_eq_getElem hir)
    rw [List.getElem?_eq_getElem hi] at hs1
    cases hs1
    exact List.getElem?_mem hc1
  · intro i b hb
    obtain ⟨c, hc, hs⟩ := hpos i b hb
    refine ⟨?_, by rw [hs, hc]⟩
    rw [goLen_alphanum]
    exact Nat.mod_lt _ (by decide)

/-- Witness for C11: the bytes 0, 61, 62, 255 give the string "0z07", and no
bytes give the empty string. -/
theorem RandString_alphanumeric_witness :
    RandString [0, 61, 62, 255] 4 = .ok "0z07" ∧
    RandString [] 0 = .ok "" ∧
    ∃ s, RandString [0, 61, 62, 255] ((4 : Nat) : Int) = .ok s ∧ s.length = 4 ∧
      (∀ c ∈ s.data, c ∈ alphanum.data) ∧
      (∀ (i b : Nat), [0, 61, 62, 255][i]? = some b →
        b % 62 < goLen alphanum ∧ s.data[i]? = alphanum.data[b % 62]?) :=
  ⟨by decide, by decide, RandString_alphanumeric [0, 61, 62, 255] 4 rfl (by decide)⟩

end Gu
